import Mathlib

/-! # glog: adapters, dispatch and file rotation

A shallow embedding of the Go package `glog` (glog.go, console.go, file.go,
filekit.go).  Go strings are Lean strings, `int`/`int64` values are `Int`
(line counts and sizes stay far below 2^63, so no wrap-around is modelled),
pointers to mutable records become explicit state passing, and the operating
system (files, standard streams, clock readings) is an explicit `World`.

Files are named by their path; the world tells which directories exist, and a
rename into a directory that does not exist fails; a file handle is the path it
was opened on together with a closed flag; clock readings are at or
after the Unix epoch and are formatted in UTC; writes to standard output
succeed.  Locks, goroutines and channels are left out: `FileAdapter.Write`
waits for its goroutine, so every call modelled here runs to its end before
the next one starts.
-/

namespace Glog

/-! ## Library functions used by the package (strings, path, fmt, time) -/

/-- Go `strings.Count(s, sep)` for a one-character separator. -/
def stringsCount (s : String) (sep : Char) : Nat :=
  s.data.count sep

/-- Worker of `stringsReplace1`: scan from the left for the first occurrence of `old`. -/
def replaceFirst (old new : List Char) : List Char → List Char
  | [] => if old.isPrefixOf [] then new else []
  | c :: cs =>
    if old.isPrefixOf (c :: cs) then new ++ (c :: cs).drop old.length
    else c :: replaceFirst old new cs

/-- Go `strings.Replace(s, old, new, 1)`: only the first (leftmost) occurrence of
`old` is replaced. -/
def stringsReplace1 (s old new : String) : String :=
  ⟨replaceFirst old.data new.data s.data⟩

/-- Worker of `pathExt`: walk the path from its last character towards the
front, `acc` holding the characters already passed. -/
def extAux : List Char → List Char → List Char
  | [], _ => []
  | c :: cs, acc =>
    if c = '/' then [] else if c = '.' then '.' :: acc else extAux cs (c :: acc)

/-- Go `path.Ext`: the suffix beginning at the final dot of the final
slash-separated element of the path, empty when there is no dot. -/
def pathExt (p : String) : String :=
  ⟨extAux p.data.reverse []⟩

/-- Go `appendInt(b, x, width)` of package time: decimal digits, zero-padded on
the left up to `width`. -/
def appendInt (x width : Nat) : String :=
  let ds := Nat.toDigits 10 x
  ⟨List.replicate (width - ds.length) '0' ++ ds⟩

/-- The verb `%5s` of fmt: pad with spaces on the left up to five characters. -/
def padLeft5 (s : String) : String :=
  ⟨List.replicate (5 - s.length) ' ' ++ s.data⟩

/-- The verb `%d` of fmt for an `int`. -/
def fmtInt (x : Int) : String :=
  match x with
  | Int.ofNat n => ⟨Nat.toDigits 10 n⟩
  | Int.negSucc n => ⟨'-' :: Nat.toDigits 10 (n + 1)⟩

/-- A clock reading (`time.Time`): seconds since the Unix epoch and the
nanoseconds within the second.  Readings are at or after the epoch and the
local zone is UTC. -/
structure Time where
  sec : Nat
  nsec : Nat
deriving DecidableEq, Repr

/-- Go `time.Unix(sec, 0)`. -/
def timeUnix (sec : Nat) : Time :=
  { sec := sec, nsec := 0 }

/-- Go `Time.Unix()`. -/
def Time.Unix (t : Time) : Nat :=
  t.sec

/-- The civil date (year, month, day) of a day number counted from 1970-01-01,
in the proleptic Gregorian calendar. -/
def civilFromDays (days : Nat) : Nat × Nat × Nat :=
  let z := days + 719468
  let era := z / 146097
  let doe := z - era * 146097
  let yoe := (doe - doe / 1460 + doe / 36524 - doe / 146096) / 365
  let doy := doe - (365 * yoe + yoe / 4 - yoe / 100)
  let mp := (5 * doy + 2) / 153
  let d := doy - (153 * mp + 2) / 5 + 1
  let m := if mp < 10 then mp + 3 else mp - 9
  let y := yoe + era * 400 + (if m ≤ 2 then 1 else 0)
  (y, m, d)

/-- Go `Time.Year()`. -/
def Time.Year (t : Time) : Nat :=
  (civilFromDays (t.sec / 86400)).1

/-- The month of the year, 1 to 12. -/
def Time.Month (t : Time) : Nat :=
  (civilFromDays (t.sec / 86400)).2.1

/-- The day of the month. -/
def Time.Day (t : Time) : Nat :=
  (civilFromDays (t.sec / 86400)).2.2

/-- The hour of the day, 0 to 23. -/
def Time.Hour (t : Time) : Nat :=
  t.sec % 86400 / 3600

/-- The minute of the hour. -/
def Time.Minute (t : Time) : Nat :=
  t.sec % 3600 / 60

/-- The second of the minute. -/
def Time.Second (t : Time) : Nat :=
  t.sec % 60

/-- Go `Time.Format("2006")`. -/
def Time.formatYear (t : Time) : String :=
  appendInt t.Year 4

/-- Go `Time.Format("200601")`. -/
def Time.formatMonth (t : Time) : String :=
  appendInt t.Year 4 ++ appendInt t.Month 2

/-- Go `Time.Format("20060102")`. -/
def Time.formatDay (t : Time) : String :=
  appendInt t.Year 4 ++ appendInt t.Month 2 ++ appendInt t.Day 2

/-- Go `Time.Format("2006010215")`. -/
def Time.formatHour (t : Time) : String :=
  appendInt t.Year 4 ++ appendInt t.Month 2 ++ appendInt t.Day 2 ++ appendInt t.Hour 2

/-- Drop the trailing zeros of a digit string. -/
def trimZeros (ds : List Char) : List Char :=
  (ds.reverse.dropWhile (fun c => c = '0')).reverse

/-- The layout element `.9999` of package time: up to four fractional digits of
the second, trailing zeros removed, and nothing at all (not even the dot) when
no digit is left. -/
def fracSecond9 (nsec : Nat) : String :=
  let ds := trimZeros ((appendInt nsec 9).data.take 4)
  if nsec = 0 ∨ ds = [] then "" else ⟨'.' :: ds⟩

/-- Go `Time.Format("2006-01-02-15.04.05.9999")`, the time flag of size and
line rotation. -/
def Time.formatFlag (t : Time) : String :=
  appendInt t.Year 4 ++ "-" ++ appendInt t.Month 2 ++ "-" ++ appendInt t.Day 2 ++ "-"
    ++ appendInt t.Hour 2 ++ "." ++ appendInt t.Minute 2 ++ "." ++ appendInt t.Second 2
    ++ fracSecond9 t.nsec

/-! ## Levels and messages (glog.go) -/

/-- The Go type `LOGLEVEL` (an `int`). -/
abbrev LOGLEVEL := Int

def DEBUG : LOGLEVEL := 1
def INFO : LOGLEVEL := 2
def WARN : LOGLEVEL := 3
def ERROR : LOGLEVEL := 4
def FATAL : LOGLEVEL := 5
def OFF : LOGLEVEL := 6

/-- The table `levelStringMap`, as a list of pairs in source order. -/
def levelStringMap : List (LOGLEVEL × String) :=
  [(DEBUG, "DEBUG"), (INFO, "INFO"), (WARN, "WANR"), (ERROR, "ERROR"), (FATAL, "FATAL"),
   (OFF, "OFF")]

/-- The method `LOGLEVEL.LevelString`: the table entry, the empty string for a
level that has none. -/
def LevelString (logLevel : LOGLEVEL) : String :=
  (levelStringMap.lookup logLevel).getD ""

/-- The record `loggerMsg`. -/
structure loggerMsg where
  Itime : String
  Ilevel : LOGLEVEL
  Body : String
  File : String
  Line : Int
deriving DecidableEq, Repr

/-- The function `formatLoggerMsg`:
`Sprintf("%s [%5s] [%s:%d] %s", Itime, LevelString, File, Line, Body)`. -/
def formatLoggerMsg (m : loggerMsg) : String :=
  m.Itime ++ " [" ++ padLeft5 (LevelString m.Ilevel) ++ "] [" ++ m.File ++ ":"
    ++ fmtInt m.Line ++ "] " ++ m.Body

/-- A hexadecimal digit, lower case. -/
def hexDigit (n : Nat) : Char :=
  "0123456789abcdef".data.getD n '0'

/-- The escape of one character inside a JSON string, as `encoding/json` writes
it with HTML escaping on. -/
def jsonEscapeChar (c : Char) : List Char :=
  if c = '"' then ['\\', '"']
  else if c = '\\' then ['\\', '\\']
  else if c = '\n' then ['\\', 'n']
  else if c = '\r' then ['\\', 'r']
  else if c = '\t' then ['\\', 't']
  else if c.toNat < 32 ∨ c = '<' ∨ c = '>' ∨ c = '&' then
    ['\\', 'u', '0', '0', hexDigit (c.toNat / 16), hexDigit (c.toNat % 16)]
  else if c.toNat = 8232 then "\\u2028".data
  else if c.toNat = 8233 then "\\u2029".data
  else [c]

/-- A JSON string literal. -/
def jsonString (s : String) : String :=
  ⟨'"' :: (s.data.flatMap jsonEscapeChar ++ ['"'])⟩

/-- Go `json.Marshal` of a `loggerMsg`: one object with the fields
`create_time`, `level`, `body`, `file`, `line` in this order. -/
def jsonMarshal (m : loggerMsg) : String :=
  "\x7b\"create_time\":" ++ jsonString m.Itime ++ ",\"level\":" ++ fmtInt m.Ilevel
    ++ ",\"body\":" ++ jsonString m.Body ++ ",\"file\":" ++ jsonString m.File
    ++ ",\"line\":" ++ fmtInt m.Line ++ "\x7d"

/-! ## The operating system -/

/-- The errors the operating system reports. -/
inductive Err where
  | notExist
  | permission
  | closed
  | invalid
deriving DecidableEq, Repr

/-- The method `Error()` of an error value. -/
def Err.Error : Err → String
  | .notExist => "no such file or directory"
  | .permission => "permission denied"
  | .closed => "file already closed"
  | .invalid => "invalid argument"

/-- The state outside the program: the files by path, the directories that
exist, the paths that cannot be opened or created (for lack of permission, of
space, of the directory), the clock readings that successive calls of
`time.Now()` return (`clock tick` is the next one), the two standard streams,
and two records kept for the statements below: the rename calls made so far,
and the identifiers of the adapters whose `Write` has been called so far. -/
structure World where
  files : String → Option String
  dirs : String → Bool
  noAccess : String → Bool
  clock : Nat → Time
  tick : Nat
  stdout : String
  stderr : String
  renameLog : List (String × String)
  writeLog : List String

/-- The directory a path lies in: the text before its last slash, `.` for a path
without slash, `/` for a path directly under the root. -/
def dirOf (path : String) : String :=
  match path.data.reverse.dropWhile (fun c => c ≠ '/') with
  | [] => "."
  | _ :: rest => if rest = [] then "/" else ⟨rest.reverse⟩

/-- The world in which the file at `name` has the content `content`. -/
def World.setFile (w : World) (name content : String) : World :=
  { w with files := fun p => if p = name then some content else w.files p }

/-- An `*os.File`: the path it was opened on and whether it has been closed. -/
structure File where
  name : String
  closed : Bool
deriving DecidableEq, Repr

/-- Go `time.Now()`: the next clock reading. -/
def timeNow (w : World) : Time × World :=
  (w.clock w.tick, { w with tick := w.tick + 1 })

/-- The size in bytes that `os.Stat(name)` reports. -/
def osStatSize (w : World) (name : String) : Except Err Nat :=
  match w.files name with
  | none => .error .notExist
  | some content => .ok content.utf8ByteSize

/-- Go `os.OpenFile(name, flag, perm)` without `O_CREATE`. -/
def osOpenFile (w : World) (name : String) : Except Err File :=
  match w.files name with
  | none => .error .notExist
  | some _ => if w.noAccess name then .error .permission else .ok { name := name, closed := false }

/-- Go `os.Create(name)`: create or truncate. -/
def osCreate (w : World) (name : String) : Except Err (File × World) :=
  if w.noAccess name then .error .permission
  else .ok ({ name := name, closed := false }, w.setFile name "")

/-- Go `os.Rename(oldpath, newpath)`: it fails when there is no file at
`oldpath` and when the directory of `newpath` does not exist; every call is
entered in the rename record. -/
def osRename (w : World) (oldpath newpath : String) : World × Option Err :=
  let w1 := { w with renameLog := w.renameLog ++ [(oldpath, newpath)] }
  match w.files oldpath with
  | none => (w1, some .notExist)
  | some content =>
    if w.dirs (dirOf newpath) = true then
      ({ w1 with files := fun p =>
          if p = newpath then some content else if p = oldpath then none else w.files p },
       none)
    else (w1, some .notExist)

/-- The method `(*os.File).Close`; a nil receiver and a second close are errors. -/
def fileClose (f : Option File) : Option File × Option Err :=
  match f with
  | none => (none, some .invalid)
  | some h => if h.closed then (some h, some .closed) else (some { h with closed := true }, none)

/-- The method `(*os.File).Write` on a handle opened for appending.  A handle
whose file has been removed from its path still accepts the bytes. -/
def fileWrite (f : Option File) (data : String) (w : World) : World × Option Err :=
  match f with
  | none => (w, some .invalid)
  | some h =>
    if h.closed then (w, some .closed)
    else match w.files h.name with
      | none => (w, none)
      | some content =>
        (w.setFile h.name (content ++ data), none)

/-! ## filekit.go -/

/-- The function `IsExist`. -/
def IsExist (w : World) (path : String) : Bool :=
  (w.files path).isSome

/-- The function `OpenOrCreateFile`. -/
def OpenOrCreateFile (w : World) (filename : String) : Except Err (File × World) :=
  if IsExist w filename then
    match osOpenFile w filename with
    | .error e => .error e
    | .ok file => .ok (file, w)
  else osCreate w filename

/-- Go `(*bufio.Reader).ReadString(delim)`: the unread rest after the first
`delim`, or nothing when the input ends before a `delim` is found (`io.EOF`). -/
def readString (delim : Char) : List Char → Option (List Char)
  | [] => none
  | c :: cs => if c = delim then some cs else readString delim cs

/-- The reading loop of `FileLines`; `fuel` bounds the number of iterations. -/
def fileLinesLoop : Nat → List Char → Int → Int
  | 0, _, fileLine => fileLine
  | fuel + 1, buf, fileLine =>
    match readString '\n' buf with
    | none => fileLine
    | some rest => fileLinesLoop fuel rest (fileLine + 1)

/-- The function `FileLines`. -/
def FileLines (w : World) (filename : String) : Except Err Int :=
  match osOpenFile w filename with
  | .error e => .error e
  | .ok _ =>
    match w.files filename with
    | none => .ok 0
    | some content => .ok (fileLinesLoop (content.length + 1) content.data 0)

/-! ## file.go -/

/-- The Go type `SliceDateType`. -/
abbrev SliceDateType := Int

def FILE_SLICE_DATE_NULL : SliceDateType := 0
def FILE_SLICE_DATE_YEAR : SliceDateType := 1
def FILE_SLICE_DATE_MONTH : SliceDateType := 2
def FILE_SLICE_DATE_DAY : SliceDateType := 3
def FILE_SLICE_DATE_HOUR : SliceDateType := 4

/-- The Go type `UNIT` with its constants `1 << (iota * 10)`. -/
abbrev UNIT := Int

def KB : UNIT := 1
def MB : UNIT := 1024
def GB : UNIT := 1048576
def TB : UNIT := 1073741824

/-- The Go type `ROLLTYPE`. -/
abbrev ROLLTYPE := Int

def RollingDaily : ROLLTYPE := 0
def RollingFileSize : ROLLTYPE := 1
def RollingFileLine : ROLLTYPE := 2

/-- The record `FileWriter` (the lock apart): the handle, nil before the first
successful open, the line count and the opening time of the segment, and the
path of the log file. -/
structure FileWriter where
  writer : Option File
  startLine : Int
  startTime : Nat
  logfile : String
deriving DecidableEq, Repr

/-- The record `FileConfig`. -/
structure FileConfig where
  JsonFlag : Bool
  LogLevel : LOGLEVEL
  FilePath : String
  Filename : String
  RollingType : ROLLTYPE
  MaxSize : Int
  MaxLine : Int
  DateSlice : SliceDateType
deriving DecidableEq, Repr

/-- The method `FileConfig.Level`. -/
def FileConfig.Level (config : FileConfig) : LOGLEVEL :=
  config.LogLevel

/-- The method `FileConfig.SetLevel`. -/
def FileConfig.SetLevel (config : FileConfig) (loglevel : LOGLEVEL) : FileConfig :=
  { config with LogLevel := loglevel }

/-- The method `FileConfig.IsJson`. -/
def FileConfig.IsJson (config : FileConfig) : Bool :=
  config.JsonFlag

/-- The result of a method of `FileWriter` that returns `error`: the writer and
the world afterwards, and the error (`none` is nil). -/
abbrev FwResult := FileWriter × World × Option Err

/-- The method `FileWriter.initFile`. -/
def FileWriter.initFile (fw : FileWriter) (w : World) : FwResult :=
  match OpenOrCreateFile w fw.logfile with
  | .error err => (fw, w, some err)
  | .ok (fp, w1) =>
    let (now, w2) := timeNow w1
    let fw1 := { fw with writer := some fp, startTime := now.Unix }
    match FileLines w2 fw.logfile with
    | .error err => (fw1, w2, some err)
    | .ok nowLines => ({ fw1 with startLine := nowLines }, w2, none)

/-- The block that `sliceByDate`, `sliceByFileSize` and `sliceByFileLine` each
run once they have decided to slice: close the handle (the result of `Close` is
dropped), rename the log file to `oldFilename`, and `initFile`. -/
def FileWriter.closeRenameInit (fw : FileWriter) (w : World) (oldFilename : String) : FwResult :=
  let fw1 := { fw with writer := (fileClose fw.writer).1 }
  match osRename w fw.logfile oldFilename with
  | (w1, some err) => (fw1, w1, some err)
  | (w1, none) => fw1.initFile w1

/-- The archival name of date slicing:
`strings.Replace(filename, filenameSuffix, "", 1) + "_" + bucket + filenameSuffix`. -/
def dateFilename (filename bucket : String) : String :=
  stringsReplace1 filename (pathExt filename) "" ++ "_" ++ bucket ++ pathExt filename

/-- The archival name of size and line slicing:
`strings.Replace(filename, filenameSuffix, "", 1) + "." + timeFlag + filenameSuffix`. -/
def flagFilename (filename timeFlag : String) : String :=
  stringsReplace1 filename (pathExt filename) "" ++ "." ++ timeFlag ++ pathExt filename

/-- The four tests of `sliceByDate` in source order, each overwriting the pair
`(isHaveSlice, oldFilename)` when it fires. -/
def sliceByDateTests (filename : String) (dateSlice : SliceDateType) (startTime nowTime : Time) :
    Bool × String :=
  let r0 : Bool × String := (false, "")
  let r1 := if dateSlice = FILE_SLICE_DATE_YEAR ∧ startTime.Year ≠ nowTime.Year
    then (true, dateFilename filename startTime.formatYear) else r0
  let r2 := if dateSlice = FILE_SLICE_DATE_MONTH ∧ startTime.formatMonth ≠ nowTime.formatMonth
    then (true, dateFilename filename startTime.formatMonth) else r1
  let r3 := if dateSlice = FILE_SLICE_DATE_DAY ∧ startTime.formatDay ≠ nowTime.formatDay
    then (true, dateFilename filename startTime.formatDay) else r2
  let r4 := if dateSlice = FILE_SLICE_DATE_HOUR ∧ startTime.formatHour ≠ startTime.formatHour
    then (true, dateFilename filename startTime.formatHour) else r3
  r4

/-- The method `FileWriter.sliceByDate`. -/
def FileWriter.sliceByDate (fw : FileWriter) (w : World) (dateSlice : SliceDateType) : FwResult :=
  let startTime := timeUnix fw.startTime
  let (nowTime, w1) := timeNow w
  let r := sliceByDateTests fw.logfile dateSlice startTime nowTime
  if r.1 = true then fw.closeRenameInit w1 r.2 else (fw, w1, none)

/-- The method `FileWriter.getFileSize`: the size in units of 1024 bytes. -/
def FileWriter.getFileSize (w : World) (filename : String) : Except Err Int :=
  match osStatSize w filename with
  | .error err => .error err
  | .ok size => .ok ((size : Int) / 1024)

/-- The method `FileWriter.sliceByFileSize`; a failed `getFileSize` leaves
`nowSize` at 0. -/
def FileWriter.sliceByFileSize (fw : FileWriter) (w : World) (maxSize : Int) : FwResult :=
  let nowSize : Int := match FileWriter.getFileSize w fw.logfile with
    | .error _ => 0
    | .ok n => n
  if nowSize ≥ maxSize then
    let (now, w1) := timeNow w
    fw.closeRenameInit w1 (flagFilename fw.logfile now.formatFlag)
  else (fw, w, none)

/-- The method `FileWriter.sliceByFileLine`. -/
def FileWriter.sliceByFileLine (fw : FileWriter) (w : World) (maxLine : Int) : FwResult :=
  if fw.startLine ≥ maxLine then
    let (now, w1) := timeNow w
    fw.closeRenameInit w1 (flagFilename fw.logfile now.formatFlag)
  else (fw, w, none)

/-- The method `FileWriter.flush`. -/
def FileWriter.flush (fw : FileWriter) : FileWriter :=
  { fw with writer := (fileClose fw.writer).1 }

/-- The first part of `writeByConfig`: the three tests on `RollingType` in
source order, each returning at once when its slicing reports an error. -/
def FileWriter.sliceByConfig (fw : FileWriter) (config : FileConfig) (w : World) : FwResult :=
  let r1 : FwResult :=
    if config.RollingType = RollingDaily then fw.sliceByDate w config.DateSlice else (fw, w, none)
  match r1 with
  | (fw1, w1, some err) => (fw1, w1, some err)
  | (fw1, w1, none) =>
    let r2 : FwResult :=
      if config.RollingType = RollingFileLine then fw1.sliceByFileLine w1 config.MaxLine
      else (fw1, w1, none)
    match r2 with
    | (fw2, w2, some err) => (fw2, w2, some err)
    | (fw2, w2, none) =>
      if config.RollingType = RollingFileSize then fw2.sliceByFileSize w2 config.MaxSize
      else (fw2, w2, none)

/-- The text `writeByConfig` builds for a message: the JSON object or the
formatted line, and a newline. -/
def fileMsg (config : FileConfig) (m : loggerMsg) : String :=
  if config.JsonFlag = true then jsonMarshal m ++ "\n" else formatLoggerMsg m ++ "\n"

/-- The second part of `writeByConfig`: build the text, and when the level
passes write it (the result of `Write` is dropped) and count its lines. -/
def FileWriter.writeMsg (fw : FileWriter) (config : FileConfig) (m : loggerMsg) (w : World) :
    FwResult :=
  let msg := fileMsg config m
  if config.Level ≤ m.Ilevel then
    let w1 := (fileWrite fw.writer msg w).1
    if config.MaxLine ≠ 0 then
      if config.JsonFlag = true then ({ fw with startLine := fw.startLine + 1 }, w1, none)
      else ({ fw with startLine := fw.startLine + (stringsCount msg '\n' : Nat) }, w1, none)
    else (fw, w1, none)
  else (fw, w, none)

/-- The method `FileWriter.writeByConfig` (the lock apart). -/
def FileWriter.writeByConfig (fw : FileWriter) (config : FileConfig) (m : loggerMsg) (w : World) :
    FwResult :=
  match fw.sliceByConfig config w with
  | (fw1, w1, some err) => (fw1, w1, some err)
  | (fw1, w1, none) => fw1.writeMsg config m w1

/-- The function `NewFileWriter`, given the joined path
`path.Join(filepath, filename)`; the result of `initFile` is dropped. -/
def NewFileWriter (logfile : String) (w : World) : FileWriter × World :=
  let fw : FileWriter := { writer := none, startLine := 0, startTime := 0, logfile := logfile }
  let r := fw.initFile w
  (r.1, r.2.1)

/-- The method `FileConfig.CheckConfig`: the text of the error, `none` for nil. -/
def FileConfig.CheckConfig (config : FileConfig) : Option String :=
  if config.FilePath = "" ∨ config.Filename = "" then
    some "config FilePath and Filename can't be empty"
  else if config.RollingType = RollingDaily then
    if config.DateSlice = FILE_SLICE_DATE_NULL then
      some "when RollingType is RollingDaily, must config DateSlice"
    else none
  else if config.RollingType = RollingFileSize then
    if config.MaxSize = 0 then some "when RollingType is RollingFileSize, must config MaxSize"
    else none
  else if config.RollingType = RollingFileLine then
    if config.MaxLine = 0 then some "when RollingType is RollingFileLine, must config MaxLine"
    else none
  else some "must config RollingType"

/-- The record `FileAdapter`: the writer it points to, its configuration and
the identifier of the embedded `AdapterLogger`. -/
structure FileAdapter where
  fileWriter : FileWriter
  config : FileConfig
  Id : String
deriving DecidableEq, Repr

/-- The method `FileAdapter.Write`: `writeByConfig` run in a goroutine whose
result is awaited on a channel. -/
def FileAdapter.Write (a : FileAdapter) (m : loggerMsg) (w : World) :
    FileAdapter × World × Option Err :=
  let r := a.fileWriter.writeByConfig a.config m w
  ({ a with fileWriter := r.1 }, r.2.1, r.2.2)

/-! ## console.go -/

/-- An escape sequence of the colour table. -/
def colorOf (codes : List Nat) : String :=
  ⟨codes.map Char.ofNat⟩

/-- The table `LevelColorMap`; a level without entry has the empty colour. -/
def levelColor (logLevel : LOGLEVEL) : String :=
  if logLevel = FATAL then colorOf [27, 91, 51, 53, 109]
  else if logLevel = ERROR then colorOf [27, 91, 51, 49, 109]
  else if logLevel = WARN then colorOf [27, 91, 51, 51, 109]
  else if logLevel = INFO then colorOf [27, 91, 51, 50, 109]
  else if logLevel = DEBUG then colorOf [27, 91, 51, 55, 109]
  else ""

/-- The function `TextWithColor`: colour, text, reset. -/
def TextWithColor (color msg : String) : String :=
  color ++ msg ++ colorOf [27, 91, 48, 109]

/-- The record `ConsoleAdapter`; its logger is `log.New(os.Stdout, "", 0)`. -/
structure ConsoleAdapter where
  JsonFlag : Bool
  LogLevel : LOGLEVEL
  ColorFlag : Bool
  Id : String
deriving DecidableEq, Repr

/-- Go `(*log.Logger).Output` of a logger on standard output without prefix and
flags: the text, with a newline added unless it already ends in one. -/
def logOutput (s : String) (w : World) : World × Option Err :=
  let line := if s.data.getLast? = some '\n' then s else s ++ "\n"
  ({ w with stdout := w.stdout ++ line }, none)

/-- The text `ConsoleAdapter.Write` builds for a message before colouring. -/
def consoleMsg (a : ConsoleAdapter) (m : loggerMsg) : String :=
  if a.JsonFlag = true then jsonMarshal m else formatLoggerMsg m

/-- The method `ConsoleAdapter.Write`. -/
def ConsoleAdapter.Write (a : ConsoleAdapter) (m : loggerMsg) (w : World) : World × Option Err :=
  let msg := consoleMsg a m
  if a.LogLevel ≤ m.Ilevel then
    if a.ColorFlag = true then logOutput (TextWithColor (levelColor m.Ilevel) msg) w
    else logOutput msg w
  else (w, none)

/-- The function `NewConsoleAdapter`. -/
def NewConsoleAdapter (loglevel : LOGLEVEL) (color json : Bool) : ConsoleAdapter :=
  { JsonFlag := json, ColorFlag := color, LogLevel := loglevel, Id := "defaultConsole" }

/-! ## glog.go: the adapter interface and the logger -/

/-- The interface `AbstractLogger` with its two implementations. -/
inductive AbstractLogger where
  | console (a : ConsoleAdapter)
  | file (a : FileAdapter)
deriving DecidableEq, Repr

/-- The method `ID`. -/
def AbstractLogger.ID : AbstractLogger → String
  | .console a => a.Id
  | .file a => a.Id

/-- The method `Name`. -/
def AbstractLogger.Name : AbstractLogger → String
  | .console _ => "console"
  | .file _ => "file"

/-- The method `Level`. -/
def AbstractLogger.Level : AbstractLogger → LOGLEVEL
  | .console a => a.LogLevel
  | .file a => a.config.Level

/-- The method `SetLevel`. -/
def AbstractLogger.SetLevel (adapter : AbstractLogger) (loglevel : LOGLEVEL) : AbstractLogger :=
  match adapter with
  | .console a => .console { a with LogLevel := loglevel }
  | .file a => .file { a with config := a.config.SetLevel loglevel }

/-- The method `Init`: both implementations print one line and return nil
(`FileAdapter.Init` drops the result of `CheckConfig`). -/
def AbstractLogger.Init (adapter : AbstractLogger) (w : World) : World × Option Err :=
  ({ w with stdout := w.stdout ++ "[GLOG] > [" ++ adapter.Name ++ " adapter] init success\n" },
   none)

/-- The method `Write`, dispatched on the implementation; the call is entered
in the write record of the world. -/
def AbstractLogger.Write (adapter : AbstractLogger) (m : loggerMsg) (w : World) :
    AbstractLogger × World × Option Err :=
  let w0 := { w with writeLog := w.writeLog ++ [adapter.ID] }
  match adapter with
  | .console a => let r := a.Write m w0; (.console a, r.1, r.2)
  | .file a => let r := a.Write m w0; (.file r.1, r.2.1, r.2.2)

/-- The table `adapters` as the two `init` functions fill it: the name of each
implementation and the value its constructor returns. -/
def adapters : List (String × AbstractLogger) :=
  [("console", .console { JsonFlag := false, LogLevel := 0, ColorFlag := false, Id := "" }),
   ("file", .file
      { fileWriter := { writer := none, startLine := 0, startTime := 0, logfile := "" },
        config := { JsonFlag := false, LogLevel := 0, FilePath := "", Filename := "",
                    RollingType := 0, MaxSize := 0, MaxLine := 0, DateSlice := 0 },
        Id := "" })]

/-- The record `Logger` (lock, channels and wait group apart). -/
structure Logger where
  globalTimeFormat : String
  callerFlag : Bool
  adapterArr : List AbstractLogger
  isSync : Bool
deriving DecidableEq, Repr

/-- How a call ends: it returns a value, or the process exits with a status. -/
inductive Outcome (α : Type) where
  | returned (a : α) (w : World)
  | exited (code : Int) (w : World)

/-- The function `printError`: print the formatted text and `os.Exit(0)`. -/
def printError {α : Type} (text : String) (w : World) : Outcome α :=
  .exited 0 { w with stdout := w.stdout ++ text }

/-- The first loop of `attach`: the first attached adapter with the identifier
of the new one ends the process through `printError`. -/
def attachScan (adapter : AbstractLogger) : List AbstractLogger → World → Outcome Unit
  | [], w => .returned () w
  | v :: rest, w =>
    if v.ID = adapter.ID then
      printError ("logger: adapter [" ++ adapter.ID ++ "] already attached!") w
    else attachScan adapter rest w

/-- The method `Logger.attach`; the value returned is the error (always nil)
and the logger afterwards. -/
def Logger.attach (logger : Logger) (adapter : AbstractLogger) (w : World) :
    Outcome (Option Err × Logger) :=
  match attachScan adapter logger.adapterArr w with
  | .exited code w1 => .exited code w1
  | .returned _ w1 =>
    match adapters.lookup adapter.Name with
    | none => printError ("logger: adapter " ++ adapter.Name ++ " is not registered") w1
    | some adapterLog =>
      match adapterLog.Init w1 with
      | (w2, some err) =>
        printError ("logger: adapter " ++ adapter.ID ++ " init failed, error: " ++ err.Error) w2
      | (w2, none) =>
        .returned (none, { logger with adapterArr := logger.adapterArr ++ [adapter] }) w2

/-- The method `Logger.Attach` (the lock apart). -/
def Logger.Attach (logger : Logger) (adapter : AbstractLogger) (w : World) :
    Outcome (Option Err × Logger) :=
  logger.attach adapter w

/-- The loop of `detach`: drop the first adapter with the identifier and stop. -/
def detachLoop (adapterID : String) : List AbstractLogger → List AbstractLogger
  | [] => []
  | v :: rest => if v.ID = adapterID then rest else v :: detachLoop adapterID rest

/-- The method `Logger.detach`; the error returned is always nil. -/
def Logger.detach (logger : Logger) (adapterID : String) : Option Err × Logger :=
  (none, { logger with adapterArr := detachLoop adapterID logger.adapterArr })

/-- The method `Logger.Detach` (the lock apart). -/
def Logger.Detach (logger : Logger) (adapterID : String) : Option Err × Logger :=
  logger.detach adapterID

/-- The body of the `if err != nil` of `writeToOutputs`: a line on standard
error for an error, nothing for nil. -/
def reportWrite (adapter : AbstractLogger) (w : World) (err : Option Err) : World :=
  match err with
  | some e =>
    { w with stderr := w.stderr ++ "logger: unable writers loggerMsg to adapter:"
        ++ adapter.ID ++ ", error: " ++ e.Error ++ "\n" }
  | none => w

/-- The loop of `writeToOutputs` over the adapters that are left. -/
def writeLoop (m : loggerMsg) : List AbstractLogger → World → List AbstractLogger × World
  | [], w => ([], w)
  | adapter :: rest, w =>
    let r := adapter.Write m w
    let w1 := reportWrite adapter r.2.1 r.2.2
    let r2 := writeLoop m rest w1
    (r.1 :: r2.1, r2.2)

/-- The method `Logger.writeToOutputs`. -/
def Logger.writeToOutputs (logger : Logger) (m : loggerMsg) (w : World) : Logger × World :=
  let r := writeLoop m logger.adapterArr w
  ({ logger with adapterArr := r.1 }, r.2)

/-- Dispatch as the specification words it, one adapter at a time: `Write` is
called with the event on the adapter, in the world its predecessors left; a
failure is reported on standard error and does not stop the dispatch. -/
def deliverStep (m : loggerMsg) (acc : List AbstractLogger × World) (adapter : AbstractLogger) :
    List AbstractLogger × World :=
  let r := adapter.Write m acc.2
  (acc.1 ++ [r.1], reportWrite adapter r.2.1 r.2.2)

/-- Dispatch as the specification words it: every attached adapter is
delivered to, once each, in attachment order. -/
def deliverInOrder (m : loggerMsg) (adapterArr : List AbstractLogger) (w : World) :
    List AbstractLogger × World :=
  adapterArr.foldl (deliverStep m) ([], w)

/-- The method `Logger.SetGlobalLevel`. -/
def Logger.SetGlobalLevel (logger : Logger) (loglevel : LOGLEVEL) : Logger :=
  { logger with adapterArr := logger.adapterArr.map (fun adapter => adapter.SetLevel loglevel) }

/-- The method `Logger.ShowLevel`: the map it builds, entry by entry in the
order of the adapters, a later entry replacing an earlier one of the same key. -/
def Logger.ShowLevel (logger : Logger) : String → Option String :=
  logger.adapterArr.foldl
    (fun res adapter => fun k => if k = adapter.ID then some (LevelString adapter.Level) else res k)
    (fun _ => none)

/-- The world `w1` differs from `w` at most in the files, the clock position and
the rename record. -/
def World.sameOutside (w w1 : World) : Prop :=
  w1.writeLog = w.writeLog ∧ w1.stdout = w.stdout ∧ w1.stderr = w.stderr ∧
    w1.noAccess = w.noAccess ∧ w1.clock = w.clock ∧ w1.dirs = w.dirs

/-- The writer holds its log file open: the handle is an open handle on the
path of the log file, and the file is there. -/
def FileWriter.openOn (fw : FileWriter) (w : World) : Prop :=
  fw.writer = some { name := fw.logfile, closed := false } ∧ (w.files fw.logfile).isSome = true

instance (fw : FileWriter) (w : World) : Decidable (fw.openOn w) :=
  inferInstanceAs (Decidable (_ ∧ _))

/-- Write the messages one after the other with `writeByConfig`; the result is
the writer and the world at the end and the error of each call, in order. -/
def writeEach (config : FileConfig) :
    List loggerMsg → FileWriter × World → FileWriter × World × List (Option Err)
  | [], s => (s.1, s.2, [])
  | m :: ms, s =>
    let r := s.1.writeByConfig config m s.2
    let r2 := writeEach config ms (r.1, r.2.1)
    (r2.1, r2.2.1, r.2.2 :: r2.2.2)

/-- The configuration that `NewFileAdapter(loglevel, filepath, filename)` builds. -/
def newFileAdapterConfig (loglevel : LOGLEVEL) (filepath filename : String) : FileConfig :=
  { FilePath := filepath, Filename := filename, JsonFlag := false, LogLevel := loglevel,
    RollingType := RollingDaily, DateSlice := FILE_SLICE_DATE_DAY, MaxSize := 0, MaxLine := 0 }

/-- The lines of plain-text messages as `writeByConfig` writes them, one after
the other. -/
def plainLines : List loggerMsg → String
  | [] => ""
  | m :: ms => (formatLoggerMsg m ++ "\n") ++ plainLines ms

/-- The exit status of a call that ended the process, nothing for a call that
returned. -/
def Outcome.exitCode {α : Type} : Outcome α → Option Int
  | .returned _ _ => none
  | .exited code _ => some code

/-- The value of a call that returned, nothing for a call that ended the
process. -/
def Outcome.result {α : Type} : Outcome α → Option α
  | .returned a _ => some a
  | .exited _ _ => none

/-- The world at the end of a call. -/
def Outcome.world {α : Type} : Outcome α → World
  | .returned _ w => w
  | .exited _ w => w

/-! ## Concrete inputs -/

/-- A world holding one file, `holder` with the content `content`, and one
directory, that of `holder`, in which `time.Now()` first returns `t0` (a Unix
time) and one hour more at every later call; `locked` tells whether the file
can be opened or created. -/
def worldOf (holder content : String) (t0 : Nat) (locked : Bool) : World :=
  { files := fun p => if p = holder then some content else none,
    dirs := fun d => decide (d = dirOf holder),
    noAccess := fun p => if p = holder then locked else false,
    clock := fun n => { sec := t0 + 3600 * n, nsec := 0 },
    tick := 0, stdout := "", stderr := "", renameLog := [], writeLog := [] }

/-- A writer that has never opened its log file `app.log`. -/
def freshWriter : FileWriter :=
  { writer := none, startLine := 0, startTime := 0, logfile := "app.log" }

/-- A writer holding `app.log` open, `n` lines into the segment that was opened
at the Unix time `t`. -/
def openWriter (n : Int) (t : Nat) : FileWriter :=
  { writer := some { name := "app.log", closed := false }, startLine := n, startTime := t,
    logfile := "app.log" }

/-- A configuration for `app.log` in the current directory. -/
def configOf (json : Bool) (level : LOGLEVEL) (roll : ROLLTYPE) (maxSize maxLine : Int)
    (dateSlice : SliceDateType) : FileConfig :=
  { JsonFlag := json, LogLevel := level, FilePath := ".", Filename := "app.log",
    RollingType := roll, MaxSize := maxSize, MaxLine := maxLine, DateSlice := dateSlice }

/-- A message from `main.go:17`. -/
def msgOf (level : LOGLEVEL) (body : String) : loggerMsg :=
  { Itime := "2024-11-04 09:25:45.000", Ilevel := level, Body := body, File := "main.go",
    Line := 17 }

/-- A console adapter with the identifier `id`. -/
def consoleOf (id : String) (level : LOGLEVEL) : AbstractLogger :=
  .console { JsonFlag := false, LogLevel := level, ColorFlag := false, Id := id }

/-- A file adapter on `app.log` that rotates by line count, `n` lines into its
segment. -/
def fileAdapterOf (id : String) (level : LOGLEVEL) (n maxLine : Int) : AbstractLogger :=
  .file { fileWriter := openWriter n 1730712345,
          config := configOf false level RollingFileLine 0 maxLine 0, Id := id }

/-- A logger with the given adapters attached. -/
def loggerOf (adapterArr : List AbstractLogger) : Logger :=
  { globalTimeFormat := "2006-01-02 15:04:05.000", callerFlag := true, adapterArr := adapterArr,
    isSync := true }

/-- A writer holding `x.logs/app.log` open, `n` lines into the segment that was
opened at the Unix time `t`. -/
def openWriterIn (n : Int) (t : Nat) : FileWriter :=
  { writer := some { name := "x.logs/app.log", closed := false }, startLine := n, startTime := t,
    logfile := "x.logs/app.log" }

/-! ## Line counting -/

theorem readString_none_count (buf : List Char) (h : readString '\n' buf = none) :
    buf.count '\n' = 0 := by
  induction buf with
  | nil => rfl
  | cons c cs ih =>
    unfold readString at h
    by_cases hc : c = '\n'
    · simp [hc] at h
    · simp only [hc, if_false] at h
      rw [List.count_cons, ih h]
      simp [hc]

theorem readString_some_count (buf rest : List Char) (h : readString '\n' buf = some rest) :
    buf.count '\n' = rest.count '\n' + 1 ∧ rest.length < buf.length := by
  induction buf with
  | nil => simp [readString] at h
  | cons c cs ih =>
    unfold readString at h
    by_cases hc : c = '\n'
    · simp only [hc, if_true, Option.some.injEq] at h
      subst h
      simp [hc]
    · simp only [hc, if_false] at h
      obtain ⟨h1, h2⟩ := ih h
      refine ⟨?_, ?_⟩
      · rw [List.count_cons, h1]
        simp [hc]
      · simp only [List.length_cons]
        omega

theorem fileLinesLoop_count (fuel : Nat) (buf : List Char) (n : Int)
    (hfuel : buf.length < fuel) :
    fileLinesLoop fuel buf n = n + (buf.count '\n' : Nat) := by
  induction fuel generalizing buf n with
  | zero => omega
  | succ k ih =>
    unfold fileLinesLoop
    cases hr : readString '\n' buf with
    | none => simp [readString_none_count buf hr]
    | some rest =>
      obtain ⟨h1, h2⟩ := readString_some_count buf rest hr
      simp only
      rw [ih rest (n + 1) (by omega), h1]
      push_cast
      ring

theorem FileLines_eq_count (w : World) (filename content : String)
    (hfile : w.files filename = some content) (hacc : w.noAccess filename = false) :
    FileLines w filename = .ok ((stringsCount content '\n' : Nat) : Int) := by
  unfold FileLines osOpenFile
  simp only [hfile, hacc]
  simp only [Bool.false_eq_true, if_false]
  have hlen : content.data.length < content.length + 1 := Nat.lt_succ_self _
  rw [fileLinesLoop_count _ _ _ hlen]
  simp [stringsCount]

/-! ## The world under the file operations -/

theorem setFile_files (w : World) (name content p : String) :
    (w.setFile name content).files p = if p = name then some content else w.files p := rfl

theorem setFile_setFile (w : World) (name c1 c2 : String) :
    (w.setFile name c1).setFile name c2 = w.setFile name c2 := by
  unfold World.setFile
  congr 1
  funext p
  by_cases hp : p = name <;> simp [hp]

theorem initFile_existing (fw : FileWriter) (w : World) (c : String)
    (hfile : w.files fw.logfile = some c) (hacc : w.noAccess fw.logfile = false) :
    fw.initFile w =
      ({ writer := some { name := fw.logfile, closed := false },
         startLine := ((stringsCount c '\n' : Nat) : Int),
         startTime := (w.clock w.tick).sec, logfile := fw.logfile },
       { w with tick := w.tick + 1 }, none) := by
  have hl : FileLines { w with tick := w.tick + 1 } fw.logfile
      = .ok ((stringsCount c '\n' : Nat) : Int) :=
    FileLines_eq_count _ _ c hfile hacc
  unfold FileWriter.initFile OpenOrCreateFile IsExist osOpenFile
  simp only [hfile, hacc, Option.isSome_some, if_true, Bool.false_eq_true, if_false, timeNow, hl,
    Time.Unix]

theorem initFile_missing (fw : FileWriter) (w : World)
    (hfile : w.files fw.logfile = none) (hacc : w.noAccess fw.logfile = false) :
    fw.initFile w =
      ({ writer := some { name := fw.logfile, closed := false }, startLine := 0,
         startTime := (w.clock w.tick).sec, logfile := fw.logfile },
       { w.setFile fw.logfile "" with tick := w.tick + 1 }, none) := by
  have hl : FileLines { w.setFile fw.logfile "" with tick := w.tick + 1 } fw.logfile
      = .ok ((stringsCount "" '\n' : Nat) : Int) :=
    FileLines_eq_count _ _ "" (by simp [World.setFile]) hacc
  simp only [World.setFile] at hl
  unfold FileWriter.initFile OpenOrCreateFile IsExist osCreate
  simp only [hfile, hacc, Option.isSome_none, Bool.false_eq_true, if_false, timeNow,
    World.setFile, hl, Time.Unix]
  rfl

theorem initFile_noAccess (fw : FileWriter) (w : World) (hacc : w.noAccess fw.logfile = true) :
    fw.initFile w = (fw, w, some Err.permission) := by
  unfold FileWriter.initFile OpenOrCreateFile IsExist osOpenFile osCreate
  cases hfile : w.files fw.logfile <;> simp [hacc]

theorem initFile_fails (fw : FileWriter) (w : World) (e : Err)
    (hfail : (fw.initFile w).2.2 = some e) :
    e = Err.permission ∧ w.noAccess fw.logfile = true ∧
    fw.initFile w = (fw, w, some Err.permission) := by
  cases hacc : w.noAccess fw.logfile with
  | true =>
    have hi := initFile_noAccess fw w hacc
    rw [hi] at hfail
    exact ⟨(Option.some.inj hfail).symm, rfl, hi⟩
  | false =>
    exfalso
    cases hfile : w.files fw.logfile with
    | none =>
      rw [initFile_missing fw w hfile hacc] at hfail
      simp at hfail
    | some c =>
      rw [initFile_existing fw w c hfile hacc] at hfail
      simp at hfail

/-! ## C5: detaching -/

theorem detachLoop_absent (i : String) (l : List AbstractLogger)
    (h : ∀ v ∈ l, v.ID ≠ i) : detachLoop i l = l := by
  induction l with
  | nil => rfl
  | cons v rest ih =>
    unfold detachLoop
    have hv : v.ID ≠ i := h v (List.mem_cons_self _ _)
    rw [if_neg hv, ih (fun u hu => h u (List.mem_cons_of_mem _ hu))]

theorem filter_absent (i : String) (l : List AbstractLogger)
    (h : ∀ v ∈ l, v.ID ≠ i) : l.filter (fun v => decide (v.ID ≠ i)) = l := by
  rw [List.filter_eq_self]
  intro v hv
  exact decide_eq_true (h v hv)

theorem detachLoop_eq_filter (i : String) (l : List AbstractLogger)
    (hu : (l.map AbstractLogger.ID).Nodup) :
    detachLoop i l = l.filter (fun v => decide (v.ID ≠ i)) := by
  induction l with
  | nil => rfl
  | cons v rest ih =>
    rw [List.map_cons, List.nodup_cons] at hu
    unfold detachLoop
    by_cases hv : v.ID = i
    · have hrest : ∀ u ∈ rest, u.ID ≠ i := by
        intro u hmem hid
        exact hu.1 (by rw [hv, ← hid]; exact List.mem_map_of_mem _ hmem)
      rw [if_pos hv, List.filter_cons_of_neg (by simp [hv]), filter_absent i rest hrest]
    · rw [if_neg hv, List.filter_cons_of_pos (by simp [hv]), ih hu.2]

/-- C5: on a registry whose identifiers are unique, `Detach(i)` returns nil and
leaves exactly the adapters whose identifier is not `i`, in their order (so it
removes the adapter with identifier `i`); a second `Detach(i)` returns nil and
changes nothing more; and when no adapter has identifier `i` the logger is left
as it was. -/
theorem C5_detach_idempotent (logger : Logger) (i : String)
    (hu : (logger.adapterArr.map AbstractLogger.ID).Nodup) :
    (logger.Detach i).1 = none ∧
    (logger.Detach i).2.adapterArr = logger.adapterArr.filter (fun v => decide (v.ID ≠ i)) ∧
    (∀ v ∈ (logger.Detach i).2.adapterArr, v.ID ≠ i) ∧
    (logger.Detach i).2.Detach i = (none, (logger.Detach i).2) ∧
    ((∀ v ∈ logger.adapterArr, v.ID ≠ i) → logger.Detach i = (none, logger)) := by
  have hf := detachLoop_eq_filter i logger.adapterArr hu
  have hgone : ∀ v ∈ detachLoop i logger.adapterArr, v.ID ≠ i := by
    intro v hv
    rw [hf, List.mem_filter] at hv
    exact of_decide_eq_true hv.2
  refine ⟨rfl, hf, hgone, ?_, ?_⟩
  · show ((none : Option Err), ({ (logger.Detach i).2 with
        adapterArr := detachLoop i (detachLoop i logger.adapterArr) } : Logger)) = _
    rw [detachLoop_absent i _ hgone]
    rfl
  · intro habs
    show ((none : Option Err), ({ logger with
        adapterArr := detachLoop i logger.adapterArr } : Logger)) = _
    rw [detachLoop_absent i _ habs]

/-- C5 at a logger with the adapters `a`, `b`, `c`: detaching `b` once or twice
leaves `a`, `c`. -/
theorem C5_detach_idempotent_witness :
    ((loggerOf [consoleOf "a" 2, consoleOf "b" 2, consoleOf "c" 2]).adapterArr.map
        AbstractLogger.ID).Nodup ∧
    ((loggerOf [consoleOf "a" 2, consoleOf "b" 2, consoleOf "c" 2]).Detach "b").2.adapterArr
      = [consoleOf "a" 2, consoleOf "c" 2] ∧
    (((loggerOf [consoleOf "a" 2, consoleOf "b" 2, consoleOf "c" 2]).Detach "b").2.Detach "b").2
      = loggerOf [consoleOf "a" 2, consoleOf "c" 2] :=
  ⟨by decide, by decide,
   by
    rw [(C5_detach_idempotent (loggerOf [consoleOf "a" 2, consoleOf "b" 2, consoleOf "c" 2]) "b"
      (by decide)).2.2.2.1]
    decide⟩

/-! ## What the file writer leaves alone -/

theorem sameOutside_refl (w : World) : w.sameOutside w :=
  ⟨rfl, rfl, rfl, rfl, rfl, rfl⟩

theorem sameOutside_trans {w w1 w2 : World} (h1 : w.sameOutside w1) (h2 : w1.sameOutside w2) :
    w.sameOutside w2 :=
  ⟨h2.1.trans h1.1, h2.2.1.trans h1.2.1, h2.2.2.1.trans h1.2.2.1, h2.2.2.2.1.trans h1.2.2.2.1,
   h2.2.2.2.2.1.trans h1.2.2.2.2.1, h2.2.2.2.2.2.trans h1.2.2.2.2.2⟩

theorem initFile_sameOutside (fw : FileWriter) (w : World) :
    w.sameOutside (fw.initFile w).2.1 ∧ (fw.initFile w).2.1.renameLog = w.renameLog := by
  cases hacc : w.noAccess fw.logfile with
  | true => rw [initFile_noAccess fw w hacc]; exact ⟨sameOutside_refl w, rfl⟩
  | false =>
    cases hfile : w.files fw.logfile with
    | none => rw [initFile_missing fw w hfile hacc]; exact ⟨⟨rfl, rfl, rfl, rfl, rfl, rfl⟩, rfl⟩
    | some c => rw [initFile_existing fw w c hfile hacc]; exact ⟨⟨rfl, rfl, rfl, rfl, rfl, rfl⟩, rfl⟩

theorem osRename_sameOutside (w : World) (oldpath newpath : String) :
    w.sameOutside (osRename w oldpath newpath).1 ∧
    (osRename w oldpath newpath).1.renameLog = w.renameLog ++ [(oldpath, newpath)] := by
  unfold osRename
  cases w.files oldpath with
  | none => exact ⟨⟨rfl, rfl, rfl, rfl, rfl, rfl⟩, rfl⟩
  | some c =>
    simp only
    split <;> exact ⟨⟨rfl, rfl, rfl, rfl, rfl, rfl⟩, rfl⟩

theorem osRename_ok (w : World) (oldpath newpath c : String)
    (hfile : w.files oldpath = some c) (hdir : w.dirs (dirOf newpath) = true) :
    osRename w oldpath newpath
      = ({ ({ w with renameLog := w.renameLog ++ [(oldpath, newpath)] } : World) with
            files := fun p =>
              if p = newpath then some c else if p = oldpath then none else w.files p },
         none) := by
  unfold osRename
  simp only [hfile, hdir, if_true]

theorem osRename_fails (w : World) (oldpath newpath : String) (e : Err)
    (h : (osRename w oldpath newpath).2 = some e) :
    e = Err.notExist ∧
    osRename w oldpath newpath
      = ({ w with renameLog := w.renameLog ++ [(oldpath, newpath)] }, some Err.notExist) := by
  unfold osRename at h ⊢
  cases hfile : w.files oldpath with
  | none =>
    simp only [hfile] at h
    refine ⟨(Option.some.inj h).symm, ?_⟩
    simp only [hfile]
  | some c =>
    simp only [hfile] at h
    by_cases hdir : w.dirs (dirOf newpath) = true
    · simp [hdir] at h
    · simp only [hdir] at h
      refine ⟨(Option.some.inj h).symm, ?_⟩
      simp only [hfile, hdir]
      rfl

theorem osRename_ok_inv (w : World) (oldpath newpath : String)
    (h : (osRename w oldpath newpath).2 = none) :
    ∃ c, w.files oldpath = some c ∧ w.dirs (dirOf newpath) = true := by
  unfold osRename at h
  cases hfile : w.files oldpath with
  | none => simp [hfile] at h
  | some c =>
    by_cases hdir : w.dirs (dirOf newpath) = true
    · exact ⟨c, rfl, hdir⟩
    · simp [hfile, hdir] at h

theorem closeRenameInit_eq (fw : FileWriter) (w : World) (oldFilename : String) :
    fw.closeRenameInit w oldFilename =
      if (osRename w fw.logfile oldFilename).2 = none then
        ({ fw with writer := (fileClose fw.writer).1 } : FileWriter).initFile
          (osRename w fw.logfile oldFilename).1
      else ({ fw with writer := (fileClose fw.writer).1 }, (osRename w fw.logfile oldFilename).1,
        (osRename w fw.logfile oldFilename).2) := by
  unfold FileWriter.closeRenameInit
  rcases osRename w fw.logfile oldFilename with ⟨w1, _ | err⟩ <;> simp

theorem closeRenameInit_sameOutside (fw : FileWriter) (w : World) (oldFilename : String) :
    w.sameOutside (fw.closeRenameInit w oldFilename).2.1 ∧
    (fw.closeRenameInit w oldFilename).2.1.renameLog
      = w.renameLog ++ [(fw.logfile, oldFilename)] := by
  have hr := osRename_sameOutside w fw.logfile oldFilename
  rw [closeRenameInit_eq]
  split
  · refine ⟨sameOutside_trans hr.1 (initFile_sameOutside _ _).1, ?_⟩
    rw [(initFile_sameOutside _ _).2, hr.2]
  · exact hr

theorem sliceByDate_sameOutside (fw : FileWriter) (w : World) (dateSlice : SliceDateType) :
    w.sameOutside (fw.sliceByDate w dateSlice).2.1 := by
  unfold FileWriter.sliceByDate timeNow
  simp only
  split
  · exact sameOutside_trans ⟨rfl, rfl, rfl, rfl, rfl, rfl⟩ (closeRenameInit_sameOutside _ _ _).1
  · exact ⟨rfl, rfl, rfl, rfl, rfl, rfl⟩

theorem sliceByFileSize_sameOutside (fw : FileWriter) (w : World) (maxSize : Int) :
    w.sameOutside (fw.sliceByFileSize w maxSize).2.1 := by
  unfold FileWriter.sliceByFileSize timeNow
  simp only
  split
  · exact sameOutside_trans ⟨rfl, rfl, rfl, rfl, rfl, rfl⟩ (closeRenameInit_sameOutside _ _ _).1
  · exact sameOutside_refl w

theorem sliceByFileLine_sameOutside (fw : FileWriter) (w : World) (maxLine : Int) :
    w.sameOutside (fw.sliceByFileLine w maxLine).2.1 := by
  unfold FileWriter.sliceByFileLine timeNow
  simp only
  split
  · exact sameOutside_trans ⟨rfl, rfl, rfl, rfl, rfl, rfl⟩ (closeRenameInit_sameOutside _ _ _).1
  · exact sameOutside_refl w

theorem sliceByConfig_daily (fw : FileWriter) (config : FileConfig) (w : World)
    (h : config.RollingType = RollingDaily) :
    fw.sliceByConfig config w = fw.sliceByDate w config.DateSlice := by
  unfold FileWriter.sliceByConfig
  have h1 : ¬ RollingDaily = RollingFileLine := by decide
  have h2 : ¬ RollingDaily = RollingFileSize := by decide
  simp only [h, h1, h2, if_true, if_false]
  rcases fw.sliceByDate w config.DateSlice with ⟨fw1, w1, _ | err⟩ <;> rfl

theorem sliceByConfig_line (fw : FileWriter) (config : FileConfig) (w : World)
    (h : config.RollingType = RollingFileLine) :
    fw.sliceByConfig config w = fw.sliceByFileLine w config.MaxLine := by
  unfold FileWriter.sliceByConfig
  have h1 : ¬ RollingFileLine = RollingDaily := by decide
  have h2 : ¬ RollingFileLine = RollingFileSize := by decide
  simp only [h, h1, h2, if_true, if_false]
  rcases fw.sliceByFileLine w config.MaxLine with ⟨fw1, w1, _ | err⟩ <;> rfl

theorem sliceByConfig_size (fw : FileWriter) (config : FileConfig) (w : World)
    (h : config.RollingType = RollingFileSize) :
    fw.sliceByConfig config w = fw.sliceByFileSize w config.MaxSize := by
  unfold FileWriter.sliceByConfig
  have h1 : ¬ RollingFileSize = RollingDaily := by decide
  have h2 : ¬ RollingFileSize = RollingFileLine := by decide
  simp only [h, h1, h2, if_true, if_false]

theorem sliceByConfig_other (fw : FileWriter) (config : FileConfig) (w : World)
    (h0 : config.RollingType ≠ RollingDaily) (h1 : config.RollingType ≠ RollingFileLine)
    (h2 : config.RollingType ≠ RollingFileSize) :
    fw.sliceByConfig config w = (fw, w, none) := by
  unfold FileWriter.sliceByConfig
  simp only [h0, h1, h2, if_false]

theorem sliceByConfig_sameOutside (fw : FileWriter) (config : FileConfig) (w : World) :
    w.sameOutside (fw.sliceByConfig config w).2.1 := by
  by_cases h0 : config.RollingType = RollingDaily
  · rw [sliceByConfig_daily fw config w h0]; exact sliceByDate_sameOutside _ _ _
  · by_cases h1 : config.RollingType = RollingFileLine
    · rw [sliceByConfig_line fw config w h1]; exact sliceByFileLine_sameOutside _ _ _
    · by_cases h2 : config.RollingType = RollingFileSize
      · rw [sliceByConfig_size fw config w h2]; exact sliceByFileSize_sameOutside _ _ _
      · rw [sliceByConfig_other fw config w h0 h1 h2]; exact sameOutside_refl w

theorem fileWrite_sameOutside (f : Option File) (data : String) (w : World) :
    w.sameOutside (fileWrite f data w).1 ∧ (fileWrite f data w).1.renameLog = w.renameLog := by
  unfold fileWrite
  cases f with
  | none => exact ⟨sameOutside_refl w, rfl⟩
  | some h =>
    simp only
    split
    · exact ⟨sameOutside_refl w, rfl⟩
    · split
      · exact ⟨sameOutside_refl w, rfl⟩
      · exact ⟨⟨rfl, rfl, rfl, rfl, rfl, rfl⟩, rfl⟩

theorem writeMsg_sameOutside (fw : FileWriter) (config : FileConfig) (m : loggerMsg) (w : World) :
    w.sameOutside (fw.writeMsg config m w).2.1 ∧
    (fw.writeMsg config m w).2.1.renameLog = w.renameLog ∧
    (fw.writeMsg config m w).2.2 = none := by
  unfold FileWriter.writeMsg
  simp only
  split
  · split
    · split <;> exact ⟨(fileWrite_sameOutside _ _ _).1, (fileWrite_sameOutside _ _ _).2, rfl⟩
    · exact ⟨(fileWrite_sameOutside _ _ _).1, (fileWrite_sameOutside _ _ _).2, rfl⟩
  · exact ⟨sameOutside_refl w, rfl, rfl⟩

theorem writeByConfig_eq (fw : FileWriter) (config : FileConfig) (m : loggerMsg) (w : World) :
    fw.writeByConfig config m w =
      if (fw.sliceByConfig config w).2.2 = none then
        (fw.sliceByConfig config w).1.writeMsg config m (fw.sliceByConfig config w).2.1
      else fw.sliceByConfig config w := by
  unfold FileWriter.writeByConfig
  rcases fw.sliceByConfig config w with ⟨fw1, w1, _ | err⟩ <;> simp

theorem writeByConfig_sameOutside (fw : FileWriter) (config : FileConfig) (m : loggerMsg)
    (w : World) : w.sameOutside (fw.writeByConfig config m w).2.1 := by
  rw [writeByConfig_eq]
  split
  · exact sameOutside_trans (sliceByConfig_sameOutside _ _ _) (writeMsg_sameOutside _ _ _ _).1
  · exact sliceByConfig_sameOutside _ _ _

/-! ## C3: dispatch to every adapter -/

theorem Write_writeLog (adapter : AbstractLogger) (m : loggerMsg) (w : World) :
    (adapter.Write m w).2.1.writeLog = w.writeLog ++ [adapter.ID] ∧
    (adapter.Write m w).1.ID = adapter.ID := by
  cases adapter with
  | console a =>
    refine ⟨?_, rfl⟩
    unfold AbstractLogger.Write ConsoleAdapter.Write logOutput
    simp only
    split
    · split <;> rfl
    · rfl
  | file a =>
    refine ⟨?_, rfl⟩
    unfold AbstractLogger.Write FileAdapter.Write
    simp only
    rw [(writeByConfig_sameOutside _ _ _ _).1]

theorem writeLoop_writeLog (m : loggerMsg) (l : List AbstractLogger) (w : World) :
    (writeLoop m l w).2.writeLog = w.writeLog ++ l.map AbstractLogger.ID ∧
    (writeLoop m l w).1.map AbstractLogger.ID = l.map AbstractLogger.ID := by
  induction l generalizing w with
  | nil => simp [writeLoop]
  | cons adapter rest ih =>
    unfold writeLoop
    simp only [List.map_cons]
    have hw := Write_writeLog adapter m w
    refine ⟨?_, ?_⟩
    · rw [(ih _).1]
      have hrep : (reportWrite adapter (adapter.Write m w).2.1 (adapter.Write m w).2.2).writeLog
          = (adapter.Write m w).2.1.writeLog := by
        unfold reportWrite
        cases (adapter.Write m w).2.2 <;> rfl
      rw [hrep, hw.1]
      simp
    · rw [(ih _).2, hw.2]

theorem writeLoop_append (m : loggerMsg) (xs ys : List AbstractLogger) (w : World) :
    writeLoop m (xs ++ ys) w =
      ((writeLoop m xs w).1 ++ (writeLoop m ys (writeLoop m xs w).2).1,
       (writeLoop m ys (writeLoop m xs w).2).2) := by
  induction xs generalizing w with
  | nil => simp [writeLoop]
  | cons a rest ih =>
    simp only [List.cons_append, writeLoop, List.append_eq]
    rw [ih]

theorem deliver_foldl (m : loggerMsg) (arr acc : List AbstractLogger) (w : World) :
    arr.foldl (deliverStep m) (acc, w)
      = (acc ++ (writeLoop m arr w).1, (writeLoop m arr w).2) := by
  induction arr generalizing acc w with
  | nil => simp [writeLoop]
  | cons a rest ih =>
    simp only [List.foldl_cons, writeLoop]
    have hstep : deliverStep m (acc, w) a
        = (acc ++ [(a.Write m w).1], reportWrite a (a.Write m w).2.1 (a.Write m w).2.2) := rfl
    rw [hstep, ih]
    simp

/-- C3: for every list of attached adapters, every event and every world (hence
whichever of the `Write` calls fail), `writeToOutputs` is the delivery in
attachment order: it yields exactly what calling `Write` with the event once on
each attached adapter, one after the other, yields, a failure being reported on
standard error and nothing more.  For an adapter at any place in the list, its
`Write` is called with the event in the world that the dispatch to the adapters
before it left, and the adapters after it are dispatched to from the world it
leaves, whether it returned an error or not.  The record of `Write` calls
grows by the identifiers of the attached adapters, each once, in order, and
the adapters stay attached in the same order. -/
theorem C3_writeToOutputs_calls_every_adapter (logger : Logger) (m : loggerMsg) (w : World) :
    logger.writeToOutputs m w
      = ({ logger with adapterArr := (deliverInOrder m logger.adapterArr w).1 },
         (deliverInOrder m logger.adapterArr w).2) ∧
    (∀ (pre post : List AbstractLogger) (a : AbstractLogger),
      logger.adapterArr = pre ++ a :: post →
      (logger.writeToOutputs m w).1.adapterArr
        = (writeLoop m pre w).1 ++ (a.Write m (writeLoop m pre w).2).1 ::
            (writeLoop m post (reportWrite a (a.Write m (writeLoop m pre w).2).2.1
              (a.Write m (writeLoop m pre w).2).2.2)).1 ∧
      (logger.writeToOutputs m w).2
        = (writeLoop m post (reportWrite a (a.Write m (writeLoop m pre w).2).2.1
              (a.Write m (writeLoop m pre w).2).2.2)).2) ∧
    (logger.writeToOutputs m w).2.writeLog
      = w.writeLog ++ logger.adapterArr.map AbstractLogger.ID ∧
    (logger.writeToOutputs m w).1.adapterArr.map AbstractLogger.ID
      = logger.adapterArr.map AbstractLogger.ID := by
  refine ⟨?_, ?_, (writeLoop_writeLog m logger.adapterArr w).1,
    (writeLoop_writeLog m logger.adapterArr w).2⟩
  · unfold Logger.writeToOutputs deliverInOrder
    rw [deliver_foldl]
    simp
  · intro pre post a harr
    unfold Logger.writeToOutputs
    simp only
    rw [harr, writeLoop_append]
    simp only [writeLoop]
    simp

/-- C3 at a file adapter that fails (it is at its line limit and its path can no
longer be created) followed by a console adapter: the failure is reported on
standard error and the console adapter still gets the event. -/
theorem C3_writeToOutputs_calls_every_adapter_witness :
    ((loggerOf [fileAdapterOf "f" INFO 1 1, consoleOf "c" INFO]).writeToOutputs
        (msgOf FATAL "down") (worldOf "app.log" "x\n" 1730712345 true)).2.stderr
      = "logger: unable writers loggerMsg to adapter:f, error: permission denied\n" ∧
    ((loggerOf [fileAdapterOf "f" INFO 1 1, consoleOf "c" INFO]).writeToOutputs
        (msgOf FATAL "down") (worldOf "app.log" "x\n" 1730712345 true)).2.stdout
      = "2024-11-04 09:25:45.000 [FATAL] [main.go:17] down\n" ∧
    ((loggerOf [fileAdapterOf "f" INFO 1 1, consoleOf "c" INFO]).writeToOutputs
        (msgOf FATAL "down") (worldOf "app.log" "x\n" 1730712345 true)).2.writeLog
      = ["f", "c"] := by
  rw [(C3_writeToOutputs_calls_every_adapter
    (loggerOf [fileAdapterOf "f" INFO 1 1, consoleOf "c" INFO]) (msgOf FATAL "down")
    (worldOf "app.log" "x\n" 1730712345 true)).1]
  decide

/-! ## Archival names -/

theorem replaceFirst_length (old s : List Char) :
    s.length ≤ (replaceFirst old [] s).length + old.length := by
  induction s with
  | nil => simp
  | cons c cs ih =>
    unfold replaceFirst
    split
    · simp only [List.nil_append, List.length_drop, List.length_cons]
      omega
    · simp only [List.length_cons]
      omega

theorem flagFilename_length (filename timeFlag : String) :
    filename.length < (flagFilename filename timeFlag).length := by
  have h := replaceFirst_length (pathExt filename).data filename.data
  have hd : (flagFilename filename timeFlag).length
      = (replaceFirst (pathExt filename).data [] filename.data).length + 1
        + timeFlag.data.length + (pathExt filename).data.length := by
    simp only [flagFilename, stringsReplace1, String.length, String.data_append,
      List.length_append]
    rfl
  have h4 : filename.length = filename.data.length := rfl
  omega

theorem flagFilename_ne (filename timeFlag : String) :
    flagFilename filename timeFlag ≠ filename := by
  intro h
  have hl := flagFilename_length filename timeFlag
  rw [h] at hl
  exact Nat.lt_irrefl _ hl

/-! ## C8: slicing by size -/

theorem closeRenameInit_existing (fw : FileWriter) (w : World) (oldFilename content : String)
    (hfile : w.files fw.logfile = some content) (hacc : w.noAccess fw.logfile = false)
    (hne : oldFilename ≠ fw.logfile) (hdir : w.dirs (dirOf oldFilename) = true) :
    (fw.closeRenameInit w oldFilename).2.2 = none ∧
    (fw.closeRenameInit w oldFilename).1
      = { writer := some { name := fw.logfile, closed := false }, startLine := 0,
          startTime := (w.clock w.tick).sec, logfile := fw.logfile } ∧
    (fw.closeRenameInit w oldFilename).2.1.tick = w.tick + 1 ∧
    (fw.closeRenameInit w oldFilename).2.1.files
      = fun p => if p = fw.logfile then some ""
          else if p = oldFilename then some content else w.files p := by
  have hi := initFile_missing
    ({ fw with writer := (fileClose fw.writer).1 } : FileWriter)
    ({ ({ w with renameLog := w.renameLog ++ [(fw.logfile, oldFilename)] } : World) with
        files := fun p =>
          if p = oldFilename then some content else if p = fw.logfile then none else w.files p })
    (by simp [Ne.symm hne]) hacc
  have heq : fw.closeRenameInit w oldFilename
      = ({ fw with writer := (fileClose fw.writer).1 } : FileWriter).initFile
        ({ ({ w with renameLog := w.renameLog ++ [(fw.logfile, oldFilename)] } : World) with
        files := fun p =>
          if p = oldFilename then some content else if p = fw.logfile then none else w.files p }) := by
    rw [closeRenameInit_eq, osRename_ok w fw.logfile oldFilename content hfile hdir]
    simp only [if_true]
  rw [heq, hi]
  refine ⟨rfl, rfl, rfl, ?_⟩
  funext p
  simp only [World.setFile]
  by_cases h1 : p = fw.logfile
  · simp [h1]
  · by_cases h2 : p = oldFilename <;> simp [h1, h2]

theorem closeRenameInit_rename_fails (fw : FileWriter) (w : World) (oldFilename : String)
    (e : Err) (hfail : (osRename w fw.logfile oldFilename).2 = some e) :
    fw.closeRenameInit w oldFilename
      = ({ fw with writer := (fileClose fw.writer).1 },
         { w with renameLog := w.renameLog ++ [(fw.logfile, oldFilename)] }, some e) := by
  obtain ⟨he, hr⟩ := osRename_fails w fw.logfile oldFilename e hfail
  rw [closeRenameInit_eq, hr, he]
  simp

theorem closeRenameInit_reopen_fails (fw : FileWriter) (w : World) (oldFilename : String)
    (e : Err) (hren : (osRename w fw.logfile oldFilename).2 = none)
    (hfail : (({ fw with writer := (fileClose fw.writer).1 } : FileWriter).initFile
      (osRename w fw.logfile oldFilename).1).2.2 = some e) :
    e = Err.permission ∧
    fw.closeRenameInit w oldFilename
      = ({ fw with writer := (fileClose fw.writer).1 }, (osRename w fw.logfile oldFilename).1,
         some e) := by
  obtain ⟨he, _, hi⟩ := initFile_fails
    ({ fw with writer := (fileClose fw.writer).1 } : FileWriter)
    (osRename w fw.logfile oldFilename).1 e hfail
  refine ⟨he, ?_⟩
  rw [closeRenameInit_eq, if_pos hren, hi, he]

/-- C8: for an existing log file of `b` bytes and every maximum `M` (positive or
not), `getFileSize` is `b / 1024` and `sliceByFileSize` slices (it closes the
handle and calls rename on the log file, to its archival name) exactly when
`1024 * M <= b`, that is when the size in units of 1024 bytes reaches `M`;
otherwise it changes nothing.  When it slices, the rename succeeds exactly when
the directory of the archival name exists: then, for an accessible log file,
the old content is found under the archival name and the log file is empty
again; if not, the error of the rename is returned and no file is changed. -/
theorem C8_sliceByFileSize_threshold (fw : FileWriter) (w : World) (content : String) (M : Int)
    (hfile : w.files fw.logfile = some content) :
    FileWriter.getFileSize w fw.logfile = .ok ((content.utf8ByteSize : Int) / 1024) ∧
    ((fw.sliceByFileSize w M).2.1.renameLog
        = w.renameLog ++ [(fw.logfile, flagFilename fw.logfile (w.clock w.tick).formatFlag)]
      ↔ 1024 * M ≤ (content.utf8ByteSize : Int)) ∧
    (¬ 1024 * M ≤ (content.utf8ByteSize : Int) → fw.sliceByFileSize w M = (fw, w, none)) ∧
    (1024 * M ≤ (content.utf8ByteSize : Int) → w.noAccess fw.logfile = false →
      w.dirs (dirOf (flagFilename fw.logfile (w.clock w.tick).formatFlag)) = true →
      (fw.sliceByFileSize w M).2.2 = none ∧
      (fw.sliceByFileSize w M).2.1.files fw.logfile = some "" ∧
      (fw.sliceByFileSize w M).2.1.files
          (flagFilename fw.logfile (w.clock w.tick).formatFlag) = some content) ∧
    (1024 * M ≤ (content.utf8ByteSize : Int) →
      w.dirs (dirOf (flagFilename fw.logfile (w.clock w.tick).formatFlag)) = false →
      (fw.sliceByFileSize w M).2.2 = some Err.notExist ∧
      (fw.sliceByFileSize w M).2.1.files = w.files) := by
  have hsize : FileWriter.getFileSize w fw.logfile = .ok ((content.utf8ByteSize : Int) / 1024) := by
    unfold FileWriter.getFileSize osStatSize
    simp only [hfile]
  have hiff : (content.utf8ByteSize : Int) / 1024 ≥ M ↔ 1024 * M ≤ (content.utf8ByteSize : Int) := by
    omega
  have hyes : 1024 * M ≤ (content.utf8ByteSize : Int) →
      fw.sliceByFileSize w M = fw.closeRenameInit { w with tick := w.tick + 1 }
        (flagFilename fw.logfile (w.clock w.tick).formatFlag) := by
    intro h
    unfold FileWriter.sliceByFileSize
    simp only [hsize, timeNow]
    rw [if_pos (hiff.mpr h)]
  have hno : ¬ 1024 * M ≤ (content.utf8ByteSize : Int) → fw.sliceByFileSize w M = (fw, w, none) := by
    intro h
    unfold FileWriter.sliceByFileSize
    simp only [hsize]
    rw [if_neg (fun hge => h (hiff.mp hge))]
  refine ⟨hsize, ⟨?_, ?_⟩, hno, ?_, ?_⟩
  · intro hlog
    by_contra hlt
    rw [hno hlt] at hlog
    simp at hlog
  · intro h
    rw [hyes h, (closeRenameInit_sameOutside _ _ _).2]
  · intro h hacc hdir
    rw [hyes h]
    obtain ⟨h1, _, _, h4⟩ := closeRenameInit_existing fw { w with tick := w.tick + 1 }
      (flagFilename fw.logfile (w.clock w.tick).formatFlag) content hfile hacc
      (flagFilename_ne _ _) hdir
    refine ⟨h1, ?_, ?_⟩
    · rw [h4]; simp
    · rw [h4]; simp [flagFilename_ne]
  · intro h hdir
    have hfail : (osRename { w with tick := w.tick + 1 } fw.logfile
        (flagFilename fw.logfile (w.clock w.tick).formatFlag)).2 = some Err.notExist := by
      unfold osRename
      simp only [hfile, hdir]
      rfl
    rw [hyes h, closeRenameInit_rename_fails fw { w with tick := w.tick + 1 } _ _ hfail]
    exact ⟨rfl, rfl⟩

set_option maxRecDepth 20000 in
/-- C8 at a log file of 1024 bytes with the maximum 1 (in units of 1024 bytes):
the file is sliced. -/
theorem C8_sliceByFileSize_threshold_witness :
    (worldOf "app.log" (String.mk (List.replicate 1024 'x')) 1730712345 false).files
        (openWriter 0 1730712345).logfile = some (String.mk (List.replicate 1024 'x')) ∧
    ((openWriter 0 1730712345).sliceByFileSize
        (worldOf "app.log" (String.mk (List.replicate 1024 'x')) 1730712345 false) 1).2.1.renameLog
      = [("app.log", "app.2024-11-04-09.25.45.log")] :=
  ⟨rfl,
   ((C8_sliceByFileSize_threshold (openWriter 0 1730712345)
      (worldOf "app.log" (String.mk (List.replicate 1024 'x')) 1730712345 false)
      (String.mk (List.replicate 1024 'x')) 1 rfl).2.1.mpr (by decide)).trans
    (by decide)⟩

/-! ## C1: the threshold of an adapter -/

theorem string_append_ne_self (s t : String) (ht : t ≠ "") : s ++ t ≠ s := by
  intro h
  apply ht
  have hd : s.data ++ t.data = s.data := by
    have := congrArg String.data h
    simpa [String.data_append] using this
  have ht0 : t.data = [] := by simpa using hd
  cases t
  simp_all

theorem string_append_newline_ne (s : String) : s ++ "\n" ≠ "" := by
  intro h
  have := congrArg String.length h
  simp only [String.length_append] at this
  have h1 : ("\n" : String).length = 1 := rfl
  have h0 : ("" : String).length = 0 := rfl
  omega

theorem fileMsg_ne_empty (config : FileConfig) (m : loggerMsg) : fileMsg config m ≠ "" := by
  unfold fileMsg
  split <;> exact string_append_newline_ne _

theorem logOutput_eq (s : String) (w : World) :
    ∃ post : String, s ++ post ≠ "" ∧
      logOutput s w = ({ w with stdout := w.stdout ++ (s ++ post) }, none) := by
  unfold logOutput
  by_cases h : s.data.getLast? = some '\n'
  · refine ⟨"", ?_, ?_⟩
    · intro he
      have hs : s = "" := by simpa using he
      rw [hs] at h
      simp at h
    · simp [h]
  · exact ⟨"\n", string_append_newline_ne s, by simp [h]⟩

theorem initFile_openOn (fw : FileWriter) (w : World) (hok : (fw.initFile w).2.2 = none) :
    (fw.initFile w).1.openOn (fw.initFile w).2.1 ∧ (fw.initFile w).1.logfile = fw.logfile := by
  have hacc : w.noAccess fw.logfile = false := by
    cases h : w.noAccess fw.logfile with
    | false => rfl
    | true => rw [initFile_noAccess fw w h] at hok; simp at hok
  cases hfile : w.files fw.logfile with
  | none =>
    rw [initFile_missing fw w hfile hacc]
    exact ⟨⟨rfl, by simp [World.setFile]⟩, rfl⟩
  | some c =>
    rw [initFile_existing fw w c hfile hacc]
    exact ⟨⟨rfl, by simp [hfile]⟩, rfl⟩

theorem closeRenameInit_openOn (fw : FileWriter) (w : World) (oldFilename : String)
    (hok : (fw.closeRenameInit w oldFilename).2.2 = none) :
    (fw.closeRenameInit w oldFilename).1.openOn (fw.closeRenameInit w oldFilename).2.1 ∧
    (fw.closeRenameInit w oldFilename).1.logfile = fw.logfile := by
  rw [closeRenameInit_eq] at hok ⊢
  by_cases hren : (osRename w fw.logfile oldFilename).2 = none
  · rw [if_pos hren] at hok ⊢
    exact initFile_openOn _ _ hok
  · rw [if_neg hren] at hok
    exact absurd hok hren

theorem sliceByConfig_openOn (fw : FileWriter) (config : FileConfig) (w : World)
    (hopen : fw.openOn w) (hok : (fw.sliceByConfig config w).2.2 = none) :
    (fw.sliceByConfig config w).1.openOn (fw.sliceByConfig config w).2.1 ∧
    (fw.sliceByConfig config w).1.logfile = fw.logfile := by
  by_cases h0 : config.RollingType = RollingDaily
  · rw [sliceByConfig_daily fw config w h0] at hok ⊢
    unfold FileWriter.sliceByDate timeNow at hok ⊢
    simp only at hok ⊢
    split at hok
    · rename_i hs
      rw [if_pos hs]
      exact closeRenameInit_openOn _ _ _ hok
    · rename_i hs
      rw [if_neg hs]
      exact ⟨hopen, rfl⟩
  · by_cases h1 : config.RollingType = RollingFileLine
    · rw [sliceByConfig_line fw config w h1] at hok ⊢
      unfold FileWriter.sliceByFileLine timeNow at hok ⊢
      simp only at hok ⊢
      split at hok
      · rename_i hs
        rw [if_pos hs]
        exact closeRenameInit_openOn _ _ _ hok
      · rename_i hs
        rw [if_neg hs]
        exact ⟨hopen, rfl⟩
    · by_cases h2 : config.RollingType = RollingFileSize
      · rw [sliceByConfig_size fw config w h2] at hok ⊢
        unfold FileWriter.sliceByFileSize timeNow at hok ⊢
        simp only at hok ⊢
        split at hok
        · rename_i hs
          rw [if_pos hs]
          exact closeRenameInit_openOn _ _ _ hok
        · rename_i hs
          rw [if_neg hs]
          exact ⟨hopen, rfl⟩
      · rw [sliceByConfig_other fw config w h0 h1 h2]
        exact ⟨hopen, rfl⟩

theorem writeMsg_openOn (fw : FileWriter) (config : FileConfig) (m : loggerMsg) (w : World)
    (c : String) (hw : fw.writer = some { name := fw.logfile, closed := false })
    (hfile : w.files fw.logfile = some c) :
    (config.Level ≤ m.Ilevel →
      (fw.writeMsg config m w).2.1 = w.setFile fw.logfile (c ++ fileMsg config m) ∧
      (fw.writeMsg config m w).1.startLine = fw.startLine +
        (if config.MaxLine = 0 then 0 else if config.JsonFlag = true then 1
          else ((stringsCount (fileMsg config m) '\n' : Nat) : Int)) ∧
      (fw.writeMsg config m w).1.writer = fw.writer ∧
      (fw.writeMsg config m w).1.logfile = fw.logfile) ∧
    (¬ config.Level ≤ m.Ilevel → fw.writeMsg config m w = (fw, w, none)) := by
  have hwr : (fileWrite fw.writer (fileMsg config m) w).1
      = w.setFile fw.logfile (c ++ fileMsg config m) := by
    unfold fileWrite
    simp [hw, hfile]
  constructor
  · intro hl
    unfold FileWriter.writeMsg
    simp only [hl, if_true, hwr]
    by_cases h0 : config.MaxLine = 0
    · simp [h0]
    · by_cases hj : config.JsonFlag = true <;> simp [h0, hj]
  · intro hl
    unfold FileWriter.writeMsg
    simp only [hl, if_false]

theorem consoleWrite_pass (a : ConsoleAdapter) (m : loggerMsg) (w : World)
    (hl : a.LogLevel ≤ m.Ilevel) :
    ∃ pre post : String, pre ++ consoleMsg a m ++ post ≠ "" ∧
      a.Write m w = ({ w with stdout := w.stdout ++ (pre ++ consoleMsg a m ++ post) }, none) := by
  unfold ConsoleAdapter.Write
  simp only [hl, if_true]
  by_cases hc : a.ColorFlag = true
  · simp only [hc, if_true]
    obtain ⟨post, hne, heq⟩ :=
      logOutput_eq (TextWithColor (levelColor m.Ilevel) (consoleMsg a m)) w
    refine ⟨levelColor m.Ilevel, colorOf [27, 91, 48, 109] ++ post, ?_, ?_⟩
    · unfold TextWithColor at hne
      rwa [← String.append_assoc]
    · rw [heq]
      unfold TextWithColor
      simp only [String.append_assoc]
  · simp only [hc]
    obtain ⟨post, hne, heq⟩ := logOutput_eq (consoleMsg a m) w
    refine ⟨"", post, ?_, ?_⟩
    · simpa using hne
    · rw [heq]
      simp

/-- C1 (as amended): `ConsoleAdapter.Write` writes the text of the event to
standard output if and only if the threshold of the adapter is at most the
level of the event, and below the threshold it changes nothing and returns nil.
`writeByConfig` on a writer that holds its log file open first runs the slicing
step: when that step fails its error is returned and the event is not written,
whatever the level; when it succeeds the text of the event is appended to the
log file if and only if the threshold is at most the level of the event, nil is
returned, and below the threshold nothing is changed after the slicing step. -/
theorem C1_threshold_gates_write (a : ConsoleAdapter) (fw : FileWriter) (config : FileConfig)
    (m : loggerMsg) (w : World) (hopen : fw.openOn w) :
    (¬ a.LogLevel ≤ m.Ilevel → a.Write m w = (w, none)) ∧
    (a.LogLevel ≤ m.Ilevel → ∃ pre post : String, pre ++ consoleMsg a m ++ post ≠ "" ∧
      a.Write m w = ({ w with stdout := w.stdout ++ (pre ++ consoleMsg a m ++ post) }, none)) ∧
    ((a.Write m w).1.stdout ≠ w.stdout ↔ a.LogLevel ≤ m.Ilevel) ∧
    ((fw.sliceByConfig config w).2.2 ≠ none →
      fw.writeByConfig config m w = fw.sliceByConfig config w) ∧
    ((fw.sliceByConfig config w).2.2 = none →
      ∃ c, (fw.sliceByConfig config w).2.1.files fw.logfile = some c ∧
        (¬ config.Level ≤ m.Ilevel → fw.writeByConfig config m w
            = ((fw.sliceByConfig config w).1, (fw.sliceByConfig config w).2.1, none)) ∧
        (config.Level ≤ m.Ilevel →
          (fw.writeByConfig config m w).2.2 = none ∧
          (fw.writeByConfig config m w).2.1
            = (fw.sliceByConfig config w).2.1.setFile fw.logfile (c ++ fileMsg config m)) ∧
        ((fw.writeByConfig config m w).2.1.files fw.logfile ≠ some c
          ↔ config.Level ≤ m.Ilevel)) := by
  have hbelow : ¬ a.LogLevel ≤ m.Ilevel → a.Write m w = (w, none) := by
    intro hl
    unfold ConsoleAdapter.Write
    simp only [hl, if_false]
  refine ⟨hbelow, consoleWrite_pass a m w, ?_, ?_, ?_⟩
  · constructor
    · intro hch
      by_contra hl
      rw [hbelow hl] at hch
      exact hch rfl
    · intro hl
      obtain ⟨pre, post, hne, heq⟩ := consoleWrite_pass a m w hl
      rw [heq]
      exact string_append_ne_self _ _ hne
  · intro herr
    rw [writeByConfig_eq, if_neg herr]
  · intro hok
    obtain ⟨⟨hw, hex⟩, hlog⟩ := sliceByConfig_openOn fw config w hopen hok
    rw [hlog] at hw hex
    obtain ⟨c, hc⟩ := Option.isSome_iff_exists.mp hex
    have hwm := writeMsg_openOn (fw.sliceByConfig config w).1 config m
      (fw.sliceByConfig config w).2.1 c (by rw [hlog]; exact hw) (by rw [hlog]; exact hc)
    rw [hlog] at hwm
    have hbelowF : ¬ config.Level ≤ m.Ilevel → fw.writeByConfig config m w
        = ((fw.sliceByConfig config w).1, (fw.sliceByConfig config w).2.1, none) := by
      intro hl
      rw [writeByConfig_eq, if_pos hok]
      exact hwm.2 hl
    refine ⟨c, hc, hbelowF, ?_, ?_⟩
    · intro hl
      rw [writeByConfig_eq, if_pos hok]
      exact ⟨(writeMsg_sameOutside _ _ _ _).2.2, (hwm.1 hl).1⟩
    · constructor
      · intro hch
        by_contra hl
        rw [hbelowF hl] at hch
        exact hch hc
      · intro hl
        rw [writeByConfig_eq, if_pos hok, (hwm.1 hl).1, setFile_files, if_pos rfl]
        intro he
        exact string_append_ne_self c _ (fileMsg_ne_empty config m) (Option.some.inj he)

/-- C1 at a console adapter of threshold INFO and an open log file. -/
theorem C1_threshold_gates_write_witness :
    (openWriter 0 1730712345).openOn (worldOf "app.log" "" 1730712345 false) ∧
    (((NewConsoleAdapter INFO true false).Write (msgOf DEBUG "hello")
        (worldOf "app.log" "" 1730712345 false)).1.stdout
        ≠ (worldOf "app.log" "" 1730712345 false).stdout
      ↔ (NewConsoleAdapter INFO true false).LogLevel ≤ (msgOf DEBUG "hello").Ilevel) :=
  ⟨by decide,
   (C1_threshold_gates_write (NewConsoleAdapter INFO true false) (openWriter 0 1730712345)
      (configOf false INFO RollingFileLine 0 3 0) (msgOf DEBUG "hello")
      (worldOf "app.log" "" 1730712345 false) (by decide)).2.2.1⟩

/-- C1 fails as stated: a writer holds `app.log` open at the line limit, the
path can no longer be created, and an INFO event arrives below the threshold
ERROR.  `writeByConfig` returns an error although the threshold is greater than
the level; and a FATAL event, which passes the threshold, is not written. -/
theorem C1_counterexample_slice_error :
    (openWriter 1 1730712345).openOn (worldOf "app.log" "x\n" 1730712345 true) ∧
    ¬ (configOf false ERROR RollingFileLine 0 1 0).Level ≤ (msgOf INFO "hello").Ilevel ∧
    ((openWriter 1 1730712345).writeByConfig (configOf false ERROR RollingFileLine 0 1 0)
        (msgOf INFO "hello") (worldOf "app.log" "x\n" 1730712345 true)).2.2
      = some Err.permission ∧
    (configOf false ERROR RollingFileLine 0 1 0).Level ≤ (msgOf FATAL "hello").Ilevel ∧
    ((openWriter 1 1730712345).writeByConfig (configOf false ERROR RollingFileLine 0 1 0)
        (msgOf FATAL "hello") (worldOf "app.log" "x\n" 1730712345 true)).2.1.files "app.log"
      = none := by
  decide

/-! ## C9: the line count of one write -/

theorem stringsCount_append (a b : String) (c : Char) :
    stringsCount (a ++ b) c = stringsCount a c + stringsCount b c := by
  simp [stringsCount, String.data_append, List.count_append]

theorem digitChar_ne_newline : ∀ k, k < 10 → Nat.digitChar k ≠ '\n' := by
  decide

theorem toDigitsCore_no_newline (fuel n : Nat) (ds : List Char)
    (hds : ds.count '\n' = 0) : (Nat.toDigitsCore 10 fuel n ds).count '\n' = 0 := by
  induction fuel generalizing n ds with
  | zero => simpa [Nat.toDigitsCore] using hds
  | succ k ih =>
    unfold Nat.toDigitsCore
    have hd : (Nat.digitChar (n % 10) :: ds).count '\n' = 0 := by
      rw [List.count_cons, hds]
      have := digitChar_ne_newline (n % 10) (Nat.mod_lt _ (by decide))
      simp [this]
    simp only
    split
    · exact hd
    · exact ih _ _ hd

theorem fmtInt_no_newline (x : Int) : stringsCount (fmtInt x) '\n' = 0 := by
  cases x with
  | ofNat n =>
    exact toDigitsCore_no_newline _ _ [] rfl
  | negSucc n =>
    show ('-' :: Nat.toDigits 10 (n + 1)).count '\n' = 0
    rw [List.count_cons]
    have h := toDigitsCore_no_newline (n + 1 + 1) (n + 1) [] rfl
    unfold Nat.toDigits
    rw [h]
    decide

theorem padLeft5_no_newline (s : String) (hs : stringsCount s '\n' = 0) :
    stringsCount (padLeft5 s) '\n' = 0 := by
  unfold stringsCount at hs
  unfold padLeft5 stringsCount
  simp only [List.count_append, hs, Nat.add_zero]
  rw [List.count_replicate]
  simp

theorem LevelString_no_newline (l : LOGLEVEL) : stringsCount (LevelString l) '\n' = 0 := by
  unfold LevelString levelStringMap
  simp only [List.lookup]
  repeat' split
  all_goals decide

theorem formatLoggerMsg_count (m : loggerMsg) :
    stringsCount (formatLoggerMsg m) '\n'
      = stringsCount m.Itime '\n' + stringsCount m.File '\n' + stringsCount m.Body '\n' := by
  unfold formatLoggerMsg
  simp only [stringsCount_append, fmtInt_no_newline,
    padLeft5_no_newline _ (LevelString_no_newline m.Ilevel)]
  have h1 : stringsCount " [" '\n' = 0 := by decide
  have h2 : stringsCount "] [" '\n' = 0 := by decide
  have h3 : stringsCount ":" '\n' = 0 := by decide
  have h4 : stringsCount "] " '\n' = 0 := by decide
  omega

theorem fileMsg_plain_count (config : FileConfig) (m : loggerMsg)
    (hj : config.JsonFlag = false) :
    stringsCount (fileMsg config m) '\n' = stringsCount (formatLoggerMsg m) '\n' + 1 := by
  unfold fileMsg
  simp only [hj, Bool.false_eq_true, if_false, stringsCount_append]
  rfl

theorem sliceByConfig_renameLog (fw : FileWriter) (config : FileConfig) (w : World) :
    ((fw.sliceByConfig config w).1 = fw ∧ (fw.sliceByConfig config w).2.2 = none ∧
      (fw.sliceByConfig config w).2.1.renameLog = w.renameLog) ∨
    (∃ x, (fw.sliceByConfig config w).2.1.renameLog = w.renameLog ++ [x]) := by
  by_cases h0 : config.RollingType = RollingDaily
  · rw [sliceByConfig_daily fw config w h0]
    unfold FileWriter.sliceByDate timeNow
    simp only
    split
    · exact Or.inr ⟨_, (closeRenameInit_sameOutside _ _ _).2⟩
    · exact Or.inl ⟨rfl, rfl, rfl⟩
  · by_cases h1 : config.RollingType = RollingFileLine
    · rw [sliceByConfig_line fw config w h1]
      unfold FileWriter.sliceByFileLine timeNow
      simp only
      split
      · exact Or.inr ⟨_, (closeRenameInit_sameOutside _ _ _).2⟩
      · exact Or.inl ⟨rfl, rfl, rfl⟩
    · by_cases h2 : config.RollingType = RollingFileSize
      · rw [sliceByConfig_size fw config w h2]
        unfold FileWriter.sliceByFileSize timeNow
        simp only
        split
        · exact Or.inr ⟨_, (closeRenameInit_sameOutside _ _ _).2⟩
        · exact Or.inl ⟨rfl, rfl, rfl⟩
      · rw [sliceByConfig_other fw config w h0 h1 h2]
        exact Or.inl ⟨rfl, rfl, rfl⟩

theorem writeMsg_startLine (fw : FileWriter) (config : FileConfig) (m : loggerMsg) (w : World)
    (hl : config.Level ≤ m.Ilevel) :
    (fw.writeMsg config m w).1.startLine = fw.startLine +
      (if config.MaxLine = 0 then 0 else if config.JsonFlag = true then 1
        else ((stringsCount (fileMsg config m) '\n' : Nat) : Int)) := by
  unfold FileWriter.writeMsg
  simp only [hl, if_true]
  by_cases h0 : config.MaxLine = 0
  · simp [h0]
  · by_cases hj : config.JsonFlag = true <;> simp [h0, hj]

theorem writeByConfig_renameLog (fw : FileWriter) (config : FileConfig) (m : loggerMsg)
    (w : World) :
    (fw.writeByConfig config m w).2.1.renameLog = (fw.sliceByConfig config w).2.1.renameLog := by
  rw [writeByConfig_eq]
  split
  · exact (writeMsg_sameOutside _ _ _ _).2.1
  · rfl

theorem writeByConfig_unsliced (fw : FileWriter) (config : FileConfig) (m : loggerMsg)
    (w : World) (hlen : (fw.writeByConfig config m w).2.1.renameLog.length = w.renameLog.length) :
    (fw.sliceByConfig config w).1 = fw ∧ (fw.sliceByConfig config w).2.2 = none := by
  rw [writeByConfig_renameLog] at hlen
  rcases sliceByConfig_renameLog fw config w with h | ⟨x, hx⟩
  · exact ⟨h.1, h.2.1⟩
  · rw [hx] at hlen
    simp at hlen

theorem writeByConfig_renameLog_le (fw : FileWriter) (config : FileConfig) (m : loggerMsg)
    (w : World) : w.renameLog.length ≤ (fw.writeByConfig config m w).2.1.renameLog.length := by
  rw [writeByConfig_renameLog]
  rcases sliceByConfig_renameLog fw config w with h | ⟨x, hx⟩
  · rw [h.2.2]
  · rw [hx]; simp

theorem writeEach_renameLog_le (config : FileConfig) (ms : List loggerMsg) (fw : FileWriter)
    (w : World) : w.renameLog.length ≤ (writeEach config ms (fw, w)).2.1.renameLog.length := by
  induction ms generalizing fw w with
  | nil => exact Nat.le_refl _
  | cons m rest ih =>
    unfold writeEach
    exact Nat.le_trans (writeByConfig_renameLog_le fw config m w) (ih _ _)

theorem writeEach_unsliced (config : FileConfig) (ms : List loggerMsg) (fw : FileWriter)
    (w : World) (hj : config.JsonFlag = false) (hmax : config.MaxLine ≠ 0)
    (hms : ∀ m ∈ ms, config.Level ≤ m.Ilevel ∧ stringsCount (formatLoggerMsg m) '\n' = 0)
    (hlen : (writeEach config ms (fw, w)).2.1.renameLog.length = w.renameLog.length) :
    (writeEach config ms (fw, w)).1.startLine = fw.startLine + (ms.length : Int) := by
  induction ms generalizing fw w with
  | nil => simp [writeEach]
  | cons m rest ih =>
    unfold writeEach at hlen ⊢
    simp only at hlen ⊢
    have h1 := writeByConfig_renameLog_le fw config m w
    have h2 := writeEach_renameLog_le config rest (fw.writeByConfig config m w).1
      (fw.writeByConfig config m w).2.1
    have hstep : (fw.writeByConfig config m w).2.1.renameLog.length = w.renameLog.length := by
      omega
    obtain ⟨hfw, hok⟩ := writeByConfig_unsliced fw config m w hstep
    have hm := hms m (List.mem_cons_self _ _)
    rw [ih _ _ (fun u hu => hms u (List.mem_cons_of_mem _ hu)) (by omega)]
    rw [writeByConfig_eq, if_pos hok, writeMsg_startLine _ _ _ _ hm.1, hfw]
    rw [if_neg hmax, fileMsg_plain_count config m hj, hm.2]
    simp only [hj, Bool.false_eq_true, if_false, List.length_cons]
    push_cast
    ring

theorem fileWrite_fails (f : Option File) (data : String) (w : World)
    (h : (fileWrite f data w).2 ≠ none) : (fileWrite f data w).1 = w := by
  unfold fileWrite at h ⊢
  cases f with
  | none => rfl
  | some hd =>
    simp only at h ⊢
    by_cases hc : hd.closed = true
    · simp [hc]
    · simp only [hc] at h ⊢
      cases hfile : w.files hd.name with
      | none => simp [hfile]
      | some c => simp [hfile] at h

theorem writeMsg_world (fw : FileWriter) (config : FileConfig) (m : loggerMsg) (w : World)
    (hl : config.Level ≤ m.Ilevel) :
    (fw.writeMsg config m w).2.1 = (fileWrite fw.writer (fileMsg config m) w).1 := by
  unfold FileWriter.writeMsg
  simp only [hl, if_true]
  by_cases h0 : config.MaxLine = 0
  · simp [h0]
  · by_cases hj : config.JsonFlag = true <;> simp [h0, hj]

/-- C9 (as amended): for an event that passes the threshold and a write whose
slicing step succeeds, the line count after the write is the line count the
slicing step leaves (the old one when the write makes no rename, for then the
file is not sliced) plus: nothing when `MaxLine` is 0; 1 in JSON mode
when `MaxLine` is not 0, whatever the body; the number of newline characters of
the text built for the event in plain-text mode when `MaxLine` is not 0 (those
of the time, the file name and the body, and the terminating one).  The result
of the file write is not looked at: on a writer that holds its log file open
the text is appended, so that number is the number of newlines written; when
the file write fails (a closed or nil handle) no file is changed and the count
is the same as if it had succeeded.  Consequently, when `MaxLine` is not 0, after N plain-text events of
one line each written by a new writer to a fresh file without the file being
sliced the line count is N. -/
theorem C9_line_count_per_write (fw : FileWriter) (config : FileConfig) (m : loggerMsg)
    (w : World) (hl : config.Level ≤ m.Ilevel) :
    ((fw.sliceByConfig config w).2.2 = none →
      (fw.writeByConfig config m w).1.startLine = (fw.sliceByConfig config w).1.startLine +
        (if config.MaxLine = 0 then 0 else if config.JsonFlag = true then 1
          else ((stringsCount (fileMsg config m) '\n' : Nat) : Int))) ∧
    ((fw.writeByConfig config m w).2.1.renameLog = w.renameLog →
      (fw.sliceByConfig config w).1 = fw ∧ (fw.sliceByConfig config w).2.2 = none) ∧
    (config.JsonFlag = false →
      stringsCount (fileMsg config m) '\n'
        = stringsCount m.Itime '\n' + stringsCount m.File '\n' + stringsCount m.Body '\n' + 1) ∧
    (fw.openOn w → (fw.sliceByConfig config w).2.2 = none →
      ∃ c, (fw.sliceByConfig config w).2.1.files fw.logfile = some c ∧
        (fw.writeByConfig config m w).2.1.files fw.logfile = some (c ++ fileMsg config m)) ∧
    ((fw.sliceByConfig config w).2.2 = none →
      (fileWrite (fw.sliceByConfig config w).1.writer (fileMsg config m)
        (fw.sliceByConfig config w).2.1).2 ≠ none →
      (fw.writeByConfig config m w).2.1 = (fw.sliceByConfig config w).2.1) ∧
    (∀ (logfile : String) (w0 : World) (ms : List loggerMsg),
      (w0.files logfile = none ∨ w0.files logfile = some "") → w0.noAccess logfile = false →
      config.JsonFlag = false → config.MaxLine ≠ 0 →
      (∀ u ∈ ms, config.Level ≤ u.Ilevel ∧ stringsCount (formatLoggerMsg u) '\n' = 0) →
      (writeEach config ms (NewFileWriter logfile w0)).2.1.renameLog = w0.renameLog →
      (writeEach config ms (NewFileWriter logfile w0)).1.startLine = (ms.length : Int)) := by
  refine ⟨?_, ?_, ?_, ?_, ?_, ?_⟩
  · intro hok
    rw [writeByConfig_eq, if_pos hok]
    exact writeMsg_startLine _ _ _ _ hl
  · intro hlog
    exact writeByConfig_unsliced fw config m w (by rw [hlog])
  · intro hj
    rw [fileMsg_plain_count config m hj, formatLoggerMsg_count]
  · intro hopen hok
    obtain ⟨⟨hw, hex⟩, hlog⟩ := sliceByConfig_openOn fw config w hopen hok
    rw [hlog] at hw hex
    obtain ⟨c, hc⟩ := Option.isSome_iff_exists.mp hex
    have hwm := writeMsg_openOn (fw.sliceByConfig config w).1 config m
      (fw.sliceByConfig config w).2.1 c (by rw [hlog]; exact hw) (by rw [hlog]; exact hc)
    rw [hlog] at hwm
    refine ⟨c, hc, ?_⟩
    rw [writeByConfig_eq, if_pos hok, (hwm.1 hl).1, setFile_files, if_pos rfl]
  · intro hok hfail
    rw [writeByConfig_eq, if_pos hok, writeMsg_world _ _ _ _ hl]
    exact fileWrite_fails _ _ _ hfail
  · intro logfile w0 ms hfresh hacc hj hmax hms hlog
    have hnew : (NewFileWriter logfile w0).1.startLine = 0 ∧
        (NewFileWriter logfile w0).2.renameLog = w0.renameLog := by
      unfold NewFileWriter
      simp only
      refine ⟨?_, (initFile_sameOutside _ _).2⟩
      rcases hfresh with hnone | hempty
      · rw [initFile_missing _ _ hnone hacc]
      · rw [initFile_existing _ _ "" hempty hacc]
        rfl
    have h := writeEach_unsliced config ms (NewFileWriter logfile w0).1
      (NewFileWriter logfile w0).2 hj hmax hms (by rw [hlog, hnew.2])
    rw [hnew.1] at h
    simpa using h

/-- C9 at a plain-text line-rotating writer on an empty `app.log`: the first
event takes the line count from 0 to 1. -/
theorem C9_line_count_per_write_witness :
    (configOf false INFO RollingFileLine 0 3 0).Level ≤ (msgOf INFO "hello").Ilevel ∧
    ((openWriter 0 1730712345).writeByConfig (configOf false INFO RollingFileLine 0 3 0)
        (msgOf INFO "hello") (worldOf "app.log" "" 1730712345 false)).1.startLine = 1 :=
  ⟨by decide,
   ((C9_line_count_per_write (openWriter 0 1730712345) (configOf false INFO RollingFileLine 0 3 0)
      (msgOf INFO "hello") (worldOf "app.log" "" 1730712345 false) (by decide)).1
      (by decide)).trans (by decide)⟩

/-- C9 fails as stated: with the configuration that `NewFileAdapter` builds
(daily rotation, `MaxLine` 0) an INFO event passes the threshold INFO and its
line is appended to the file, but the line count stays 0; the same holds in
JSON mode. -/
theorem C9_counterexample_maxLine_zero :
    (newFileAdapterConfig INFO "." "app.log").Level ≤ (msgOf INFO "hello").Ilevel ∧
    ((openWriter 0 1730712345).writeByConfig (newFileAdapterConfig INFO "." "app.log")
        (msgOf INFO "hello") (worldOf "app.log" "" 1730712345 false)).2.2 = none ∧
    ((openWriter 0 1730712345).writeByConfig (newFileAdapterConfig INFO "." "app.log")
        (msgOf INFO "hello") (worldOf "app.log" "" 1730712345 false)).2.1.files "app.log"
      = some "2024-11-04 09:25:45.000 [ INFO] [main.go:17] hello\n" ∧
    ((openWriter 0 1730712345).writeByConfig (newFileAdapterConfig INFO "." "app.log")
        (msgOf INFO "hello") (worldOf "app.log" "" 1730712345 false)).1.startLine = 0 ∧
    ((openWriter 0 1730712345).writeByConfig (configOf true INFO RollingDaily 0 0 3)
        (msgOf INFO "hello") (worldOf "app.log" "" 1730712345 false)).1.startLine = 0 := by
  decide

/-! ## C2: rotation by line count -/

theorem setFile_same (w : World) (name c : String) (h : w.files name = some c) :
    w.setFile name c = w := by
  unfold World.setFile
  have hf : (fun p => if p = name then some c else w.files p) = w.files := by
    funext p
    by_cases hp : p = name
    · simp [hp, h]
    · simp [hp]
  rw [hf]

theorem writeEach_append (config : FileConfig) (xs ys : List loggerMsg) (s : FileWriter × World) :
    writeEach config (xs ++ ys) s =
      ((writeEach config ys ((writeEach config xs s).1, (writeEach config xs s).2.1)).1,
       (writeEach config ys ((writeEach config xs s).1, (writeEach config xs s).2.1)).2.1,
       (writeEach config xs s).2.2 ++
         (writeEach config ys ((writeEach config xs s).1, (writeEach config xs s).2.1)).2.2) := by
  induction xs generalizing s with
  | nil => simp [writeEach]
  | cons m rest ih =>
    simp only [List.cons_append, writeEach, List.append_eq]
    rw [ih]

theorem lineWrite_unsliced (fw : FileWriter) (config : FileConfig) (m : loggerMsg) (w : World)
    (c : String) (hw : fw.writer = some { name := fw.logfile, closed := false })
    (hfile : w.files fw.logfile = some c) (hroll : config.RollingType = RollingFileLine)
    (hlt : fw.startLine < config.MaxLine) (hmax : config.MaxLine ≠ 0)
    (hj : config.JsonFlag = false) (hl : config.Level ≤ m.Ilevel)
    (hone : stringsCount (formatLoggerMsg m) '\n' = 0) :
    fw.writeByConfig config m w =
      ({ fw with startLine := fw.startLine + 1 },
       w.setFile fw.logfile (c ++ (formatLoggerMsg m ++ "\n")), none) := by
  have hs : fw.sliceByConfig config w = (fw, w, none) := by
    rw [sliceByConfig_line fw config w hroll]
    unfold FileWriter.sliceByFileLine
    rw [if_neg (by omega)]
  have hmsg : fileMsg config m = formatLoggerMsg m ++ "\n" := by
    unfold fileMsg
    simp [hj]
  have hcount : stringsCount (fileMsg config m) '\n' = 1 := by
    rw [fileMsg_plain_count config m hj, hone]
  have hwr : (fileWrite fw.writer (fileMsg config m) w).1
      = w.setFile fw.logfile (c ++ fileMsg config m) := by
    unfold fileWrite
    simp [hw, hfile]
  rw [writeByConfig_eq, hs]
  simp only [if_true]
  unfold FileWriter.writeMsg
  rw [hmsg] at hwr hcount
  simp only [hl, if_true, ne_eq, hmax, not_false_eq_true, hj, Bool.false_eq_true, if_false,
    hmsg, hwr, hcount, Nat.cast_one]

theorem lineWrites_unsliced (config : FileConfig) (ms : List loggerMsg) (fw : FileWriter)
    (w : World) (c : String) (hw : fw.writer = some { name := fw.logfile, closed := false })
    (hfile : w.files fw.logfile = some c) (hroll : config.RollingType = RollingFileLine)
    (hmax : config.MaxLine ≠ 0) (hj : config.JsonFlag = false)
    (hroom : fw.startLine + (ms.length : Int) ≤ config.MaxLine)
    (hms : ∀ u ∈ ms, config.Level ≤ u.Ilevel ∧ stringsCount (formatLoggerMsg u) '\n' = 0) :
    writeEach config ms (fw, w) =
      ({ fw with startLine := fw.startLine + (ms.length : Int) },
       w.setFile fw.logfile (c ++ plainLines ms), List.replicate ms.length none) := by
  induction ms generalizing fw w c with
  | nil =>
    unfold writeEach
    simp only [List.length_nil, Nat.cast_zero, Int.add_zero, plainLines, String.append_empty,
      List.replicate_zero]
    rw [setFile_same w fw.logfile c hfile]
  | cons m rest ih =>
    have hm := hms m (List.mem_cons_self _ _)
    simp only [List.length_cons, Nat.cast_add, Nat.cast_one] at hroom
    have hstep := lineWrite_unsliced fw config m w c hw hfile hroll (by omega) hmax hj hm.1 hm.2
    unfold writeEach
    simp only [hstep]
    rw [ih { fw with startLine := fw.startLine + 1 }
      (w.setFile fw.logfile (c ++ (formatLoggerMsg m ++ "\n"))) (c ++ (formatLoggerMsg m ++ "\n"))
      hw (by simp [World.setFile]) (by simp only; omega)
      (fun u hu => hms u (List.mem_cons_of_mem _ hu))]
    simp only [setFile_setFile, plainLines, String.append_assoc, List.length_cons,
      List.replicate_succ, Nat.cast_add, Nat.cast_one]
    have harith : fw.startLine + 1 + (rest.length : Int) = fw.startLine + ((rest.length : Int) + 1) := by
      ring
    rw [harith]

theorem lineWrite_sliced (fw : FileWriter) (config : FileConfig) (m : loggerMsg) (w : World)
    (c : String) (hfile : w.files fw.logfile = some c) (hacc : w.noAccess fw.logfile = false)
    (hroll : config.RollingType = RollingFileLine) (hge : config.MaxLine ≤ fw.startLine)
    (hmax : config.MaxLine ≠ 0) (hj : config.JsonFlag = false) (hl : config.Level ≤ m.Ilevel)
    (hone : stringsCount (formatLoggerMsg m) '\n' = 0)
    (hdir : w.dirs (dirOf (flagFilename fw.logfile (w.clock w.tick).formatFlag)) = true) :
    (fw.writeByConfig config m w).2.2 = none ∧
    (fw.writeByConfig config m w).1.startLine = 1 ∧
    (fw.writeByConfig config m w).2.1.renameLog
      = w.renameLog ++ [(fw.logfile, flagFilename fw.logfile (w.clock w.tick).formatFlag)] ∧
    (fw.writeByConfig config m w).2.1.files
      = fun p => if p = fw.logfile then some (formatLoggerMsg m ++ "\n")
          else if p = flagFilename fw.logfile (w.clock w.tick).formatFlag then some c
          else w.files p := by
  have hs : fw.sliceByConfig config w = fw.closeRenameInit { w with tick := w.tick + 1 }
      (flagFilename fw.logfile (w.clock w.tick).formatFlag) := by
    rw [sliceByConfig_line fw config w hroll]
    unfold FileWriter.sliceByFileLine timeNow
    simp only
    rw [if_pos (by omega)]
  obtain ⟨h1, h2, _, h4⟩ := closeRenameInit_existing fw { w with tick := w.tick + 1 }
    (flagFilename fw.logfile (w.clock w.tick).formatFlag) c hfile hacc (flagFilename_ne _ _) hdir
  have hlog := (closeRenameInit_sameOutside fw { w with tick := w.tick + 1 }
    (flagFilename fw.logfile (w.clock w.tick).formatFlag)).2
  rw [← hs] at h1 h2 h4 hlog
  have hmsg : fileMsg config m = formatLoggerMsg m ++ "\n" := by
    unfold fileMsg
    simp [hj]
  have hcount : stringsCount (fileMsg config m) '\n' = 1 := by
    rw [fileMsg_plain_count config m hj, hone]
  have hwm := (writeMsg_openOn (fw.sliceByConfig config w).1 config m
    (fw.sliceByConfig config w).2.1 "" (by rw [h2]) (by rw [h4, h2]; simp)).1 hl
  rw [writeByConfig_renameLog, writeByConfig_eq, if_pos h1]
  refine ⟨(writeMsg_sameOutside _ _ _ _).2.2, ?_, hlog, ?_⟩
  · rw [hwm.2.1, if_neg hmax, hj, hcount, h2]
    simp
  · rw [hwm.1, h2]
    funext p
    simp only [setFile_files, h4, hmsg, String.empty_append]
    by_cases hp : p = fw.logfile <;> simp [hp]

theorem NewFileWriter_fresh (logfile : String) (w : World)
    (hfresh : w.files logfile = none ∨ w.files logfile = some "")
    (hacc : w.noAccess logfile = false) :
    (NewFileWriter logfile w).1
      = { writer := some { name := logfile, closed := false }, startLine := 0,
          startTime := (w.clock w.tick).sec, logfile := logfile } ∧
    (NewFileWriter logfile w).2.files
      = (fun p => if p = logfile then some "" else w.files p) ∧
    (NewFileWriter logfile w).2.tick = w.tick + 1 ∧
    (NewFileWriter logfile w).2.clock = w.clock ∧
    (NewFileWriter logfile w).2.noAccess = w.noAccess ∧
    (NewFileWriter logfile w).2.renameLog = w.renameLog ∧
    (NewFileWriter logfile w).2.dirs = w.dirs := by
  unfold NewFileWriter
  simp only
  rcases hfresh with hnone | hempty
  · rw [initFile_missing _ _ hnone hacc]
    exact ⟨rfl, rfl, rfl, rfl, rfl, rfl, rfl⟩
  · rw [initFile_existing _ _ "" hempty hacc]
    refine ⟨rfl, ?_, rfl, rfl, rfl, rfl, rfl⟩
    funext p
    by_cases hp : p = logfile
    · simp [hp, hempty]
    · simp [hp]

/-- The line rotation scenario where the archival name lies in a directory that
exists: let `MaxLine = M >= 1`, rotation by line count, plain text, and an
accessible log file that is empty or not yet there.  Write `M + 1` events that
pass the threshold and are of one line each.  The first `M` writes make no
rename and leave their `M` lines in the log file.  The `(M+1)`-th write makes
the one rename of the whole run, to the archival name of its time flag; no
write returns an error; afterwards the archived file holds the first `M` lines
in order, the log file holds exactly the `(M+1)`-th line, every other path is
as before, and the line count of the segment is 1. -/
theorem lineRotation_scenario (M : Nat) (hM : 1 ≤ M) (config : FileConfig)
    (logfile : String) (w : World) (ms : List loggerMsg) (last : loggerMsg)
    (hroll : config.RollingType = RollingFileLine) (hmax : config.MaxLine = (M : Int))
    (hj : config.JsonFlag = false)
    (hfresh : w.files logfile = none ∨ w.files logfile = some "")
    (hacc : w.noAccess logfile = false) (hlen : ms.length = M)
    (hms : ∀ u ∈ ms ++ [last],
      config.Level ≤ u.Ilevel ∧ stringsCount (formatLoggerMsg u) '\n' = 0)
    (hdir : w.dirs (dirOf (flagFilename logfile (w.clock (w.tick + 1)).formatFlag)) = true) :
    (writeEach config ms (NewFileWriter logfile w)).2.1.renameLog = w.renameLog ∧
    (writeEach config ms (NewFileWriter logfile w)).2.1.files logfile = some (plainLines ms) ∧
    (writeEach config (ms ++ [last]) (NewFileWriter logfile w)).2.2
      = List.replicate (M + 1) none ∧
    (writeEach config (ms ++ [last]) (NewFileWriter logfile w)).2.1.renameLog
      = w.renameLog ++ [(logfile, flagFilename logfile (w.clock (w.tick + 1)).formatFlag)] ∧
    (writeEach config (ms ++ [last]) (NewFileWriter logfile w)).2.1.files
        (flagFilename logfile (w.clock (w.tick + 1)).formatFlag) = some (plainLines ms) ∧
    (writeEach config (ms ++ [last]) (NewFileWriter logfile w)).2.1.files logfile
      = some (formatLoggerMsg last ++ "\n") ∧
    (∀ p, p ≠ logfile → p ≠ flagFilename logfile (w.clock (w.tick + 1)).formatFlag →
      (writeEach config (ms ++ [last]) (NewFileWriter logfile w)).2.1.files p = w.files p) ∧
    (writeEach config (ms ++ [last]) (NewFileWriter logfile w)).1.startLine = 1 := by
  obtain ⟨hfw, hfiles, htick, hclock, hnoacc, hrlog, hdirs⟩ :=
    NewFileWriter_fresh logfile w hfresh hacc
  generalize NewFileWriter logfile w = s0 at *
  obtain ⟨fw0, w0⟩ := s0
  simp only at hfw hfiles htick hclock hnoacc hrlog hdirs
  subst hfw
  have hmax0 : config.MaxLine ≠ 0 := by rw [hmax]; omega
  have hfirst := lineWrites_unsliced config ms
    { writer := some { name := logfile, closed := false }, startLine := 0,
      startTime := (w.clock w.tick).sec, logfile := logfile } w0 ""
    rfl (by rw [hfiles]; simp) hroll hmax0 hj (by rw [hmax, hlen]; simp)
    (fun u hu => hms u (List.mem_append_left _ hu))
  simp only [String.empty_append, Int.zero_add, hlen] at hfirst
  have hl := hms last (List.mem_append_right _ (List.mem_singleton_self _))
  have hlast := lineWrite_sliced
    { writer := some { name := logfile, closed := false }, startLine := (M : Int),
      startTime := (w.clock w.tick).sec, logfile := logfile }
    config last (w0.setFile logfile (plainLines ms)) (plainLines ms)
    (by simp [World.setFile]) (by show w0.noAccess logfile = false; rw [hnoacc]; exact hacc)
    hroll (by rw [hmax]) hmax0 hj hl.1 hl.2
    (by
      show w0.dirs (dirOf (flagFilename logfile (w0.clock w0.tick).formatFlag)) = true
      rw [hdirs, hclock, htick]
      exact hdir)
  have hck : (w0.setFile logfile (plainLines ms)).clock (w0.setFile logfile (plainLines ms)).tick
      = w.clock (w.tick + 1) := by
    show w0.clock w0.tick = _
    rw [hclock, htick]
  have hrl : (w0.setFile logfile (plainLines ms)).renameLog = w.renameLog := hrlog
  rw [hck, hrl] at hlast
  simp only at hlast
  obtain ⟨hl1, hl2, hl3, hl4⟩ := hlast
  rw [writeEach_append, hfirst]
  simp only [writeEach]
  refine ⟨hrlog, by simp [World.setFile], ?_, hl3, ?_, ?_, ?_, hl2⟩
  · simp [List.replicate_succ', hl1]
  · rw [hl4]
    simp [flagFilename_ne]
  · rw [hl4]
    simp
  · intro p hp1 hp2
    rw [hl4]
    simp only [hp1, hp2, if_false, setFile_files]
    rw [hfiles]
    simp [hp1]

/-- The scenario of the specification at `app.log`: `MaxLine = 3` and four
events. -/
theorem lineRotation_scenario_example :
    (writeEach (configOf false INFO RollingFileLine 0 3 0)
        ([msgOf INFO "a", msgOf WARN "b", msgOf ERROR "c"] ++ [msgOf FATAL "d"])
        (NewFileWriter "app.log" (worldOf "app.log" "" 1730712345 false))).2.1.files "app.log"
      = some "2024-11-04 09:25:45.000 [FATAL] [main.go:17] d\n" :=
  (lineRotation_scenario 3 (by decide) (configOf false INFO RollingFileLine 0 3 0) "app.log"
      (worldOf "app.log" "" 1730712345 false)
      [msgOf INFO "a", msgOf WARN "b", msgOf ERROR "c"] (msgOf FATAL "d")
      rfl rfl rfl (Or.inr rfl) rfl rfl (by decide) (by decide)).2.2.2.2.2.1

/-- C2, the code at a failing input: the log file is `x.logs/app.log`, empty, in
the one directory `x.logs`; `MaxLine = 3`, rotation by line count, plain text,
four events of one line each that pass the threshold.  The first three writes
succeed without a rename and leave their lines in the log file.  The fourth
write closes the handle and calls rename to `xs/app.log.2024-11-04-10.25.45.log`
(the extension was cut at its first occurrence, inside the directory name);
there is no directory `xs`, the rename fails and the write returns its error.
Afterwards no archived file exists, the log file still holds the first three
lines and not the fourth, the handle is closed and the line count is 3. -/
theorem C2_line_rotation_fails_on_archival_name :
    (writeEach (configOf false INFO RollingFileLine 0 3 0)
        [msgOf INFO "a", msgOf WARN "b", msgOf ERROR "c"]
        (NewFileWriter "x.logs/app.log"
          (worldOf "x.logs/app.log" "" 1730712345 false))).2.2 = [none, none, none] ∧
    (writeEach (configOf false INFO RollingFileLine 0 3 0)
        [msgOf INFO "a", msgOf WARN "b", msgOf ERROR "c", msgOf FATAL "d"]
        (NewFileWriter "x.logs/app.log"
          (worldOf "x.logs/app.log" "" 1730712345 false))).2.2
      = [none, none, none, some Err.notExist] ∧
    (writeEach (configOf false INFO RollingFileLine 0 3 0)
        [msgOf INFO "a", msgOf WARN "b", msgOf ERROR "c", msgOf FATAL "d"]
        (NewFileWriter "x.logs/app.log"
          (worldOf "x.logs/app.log" "" 1730712345 false))).2.1.renameLog
      = [("x.logs/app.log", "xs/app.log.2024-11-04-10.25.45.log")] ∧
    (writeEach (configOf false INFO RollingFileLine 0 3 0)
        [msgOf INFO "a", msgOf WARN "b", msgOf ERROR "c", msgOf FATAL "d"]
        (NewFileWriter "x.logs/app.log"
          (worldOf "x.logs/app.log" "" 1730712345 false))).2.1.files
        "xs/app.log.2024-11-04-10.25.45.log" = none ∧
    (writeEach (configOf false INFO RollingFileLine 0 3 0)
        [msgOf INFO "a", msgOf WARN "b", msgOf ERROR "c", msgOf FATAL "d"]
        (NewFileWriter "x.logs/app.log"
          (worldOf "x.logs/app.log" "" 1730712345 false))).2.1.files "x.logs/app.log"
      = some (plainLines [msgOf INFO "a", msgOf WARN "b", msgOf ERROR "c"]) ∧
    (writeEach (configOf false INFO RollingFileLine 0 3 0)
        [msgOf INFO "a", msgOf WARN "b", msgOf ERROR "c", msgOf FATAL "d"]
        (NewFileWriter "x.logs/app.log"
          (worldOf "x.logs/app.log" "" 1730712345 false))).1
      = { writer := some { name := "x.logs/app.log", closed := true }, startLine := 3,
          startTime := 1730712345, logfile := "x.logs/app.log" } := by
  decide

/-! ## C4: attaching a second adapter with the same identifier -/

theorem attachScan_duplicate (adapter : AbstractLogger) (l : List AbstractLogger) (w : World)
    (hdup : ∃ v ∈ l, v.ID = adapter.ID) :
    attachScan adapter l w
      = .exited 0 { w with stdout := w.stdout
          ++ ("logger: adapter [" ++ adapter.ID ++ "] already attached!") } := by
  induction l with
  | nil => obtain ⟨v, hv, _⟩ := hdup; cases hv
  | cons u rest ih =>
    unfold attachScan
    by_cases hu : u.ID = adapter.ID
    · rw [if_pos hu]
      rfl
    · rw [if_neg hu]
      apply ih
      obtain ⟨v, hv, hid⟩ := hdup
      rcases List.mem_cons.mp hv with h | h
      · exact absurd (h ▸ hid) hu
      · exact ⟨v, h, hid⟩

/-- C4 (as amended): when an attached adapter already has the identifier of the
new adapter, `Attach` does not return: through `printError` it prints
`logger: adapter [i] already attached!` on standard output and ends the process
with exit status 0.  No error value is returned and the new adapter is never
added to the registry. -/
theorem C4_attach_duplicate_exits (logger : Logger) (adapter : AbstractLogger) (w : World)
    (hdup : ∃ v ∈ logger.adapterArr, v.ID = adapter.ID) :
    logger.Attach adapter w
      = .exited 0 { w with stdout := w.stdout
          ++ ("logger: adapter [" ++ adapter.ID ++ "] already attached!") } ∧
    (logger.Attach adapter w).result = none ∧
    (logger.Attach adapter w).exitCode = some 0 := by
  have h : logger.Attach adapter w
      = .exited 0 { w with stdout := w.stdout
          ++ ("logger: adapter [" ++ adapter.ID ++ "] already attached!") } := by
    unfold Logger.Attach Logger.attach
    rw [attachScan_duplicate adapter logger.adapterArr w hdup]
  rw [h]
  exact ⟨rfl, rfl, rfl⟩

/-- C4 at the logger of `GetLogger` and a second console adapter with the
identifier `defaultConsole`. -/
theorem C4_attach_duplicate_exits_witness :
    (∃ v ∈ (loggerOf [consoleOf "defaultConsole" INFO]).adapterArr,
      v.ID = (consoleOf "defaultConsole" ERROR).ID) ∧
    ((loggerOf [consoleOf "defaultConsole" INFO]).Attach (consoleOf "defaultConsole" ERROR)
        (worldOf "app.log" "" 1730712345 false)).exitCode = some 0 :=
  ⟨⟨consoleOf "defaultConsole" INFO, by decide, rfl⟩,
   (C4_attach_duplicate_exits (loggerOf [consoleOf "defaultConsole" INFO])
      (consoleOf "defaultConsole" ERROR) (worldOf "app.log" "" 1730712345 false)
      ⟨consoleOf "defaultConsole" INFO, by decide, rfl⟩).2.2⟩

/-- C4 fails as stated: attaching a second adapter with the identifier
`defaultConsole` returns nothing, neither an error nor nil; the call ends the
process with status 0 after printing its text on standard output. -/
theorem C4_counterexample_no_error_returned :
    ((loggerOf [consoleOf "defaultConsole" INFO]).Attach (consoleOf "defaultConsole" ERROR)
        (worldOf "app.log" "" 1730712345 false)).result = none ∧
    ((loggerOf [consoleOf "defaultConsole" INFO]).Attach (consoleOf "defaultConsole" ERROR)
        (worldOf "app.log" "" 1730712345 false)).exitCode = some 0 ∧
    ((loggerOf [consoleOf "defaultConsole" INFO]).Attach (consoleOf "defaultConsole" ERROR)
        (worldOf "app.log" "" 1730712345 false)).world.stdout
      = "logger: adapter [defaultConsole] already attached!" := by
  decide

/-! ## C6: slicing by date -/

theorem sliceByDateTests_hour (filename : String) (startTime nowTime : Time) :
    sliceByDateTests filename FILE_SLICE_DATE_HOUR startTime nowTime = (false, "") := by
  unfold sliceByDateTests
  have h1 : ¬ FILE_SLICE_DATE_HOUR = FILE_SLICE_DATE_YEAR := by decide
  have h2 : ¬ FILE_SLICE_DATE_HOUR = FILE_SLICE_DATE_MONTH := by decide
  have h3 : ¬ FILE_SLICE_DATE_HOUR = FILE_SLICE_DATE_DAY := by decide
  dsimp only
  rw [if_neg (fun h => h.2 rfl), if_neg (fun h => h3 h.1), if_neg (fun h => h2 h.1),
    if_neg (fun h => h1 h.1)]

theorem sliceByDate_hour_never (fw : FileWriter) (w : World) :
    fw.sliceByDate w FILE_SLICE_DATE_HOUR = (fw, { w with tick := w.tick + 1 }, none) := by
  unfold FileWriter.sliceByDate timeNow
  simp only [sliceByDateTests_hour]
  rfl

/-- C6, the code at a failing input: the segment was opened at 09:25:45 and the
write comes one hour later, so the hour buckets `2024110409` and `2024110410`
differ; at hour granularity `sliceByDate` makes no rename and leaves writer and
file as they are.  (With the same two times one day apart, day granularity
does slice.) -/
theorem C6_hour_granularity_never_slices :
    (timeUnix (openWriter 1 1730712345).startTime).formatHour = "2024110409" ∧
    ((worldOf "app.log" "x\n" 1730715945 false).clock 0).formatHour = "2024110410" ∧
    ((openWriter 1 1730712345).sliceByDate (worldOf "app.log" "x\n" 1730715945 false)
        FILE_SLICE_DATE_HOUR).2.1.renameLog = [] ∧
    ((openWriter 1 1730712345).sliceByDate (worldOf "app.log" "x\n" 1730715945 false)
        FILE_SLICE_DATE_HOUR).1 = openWriter 1 1730712345 ∧
    ((openWriter 1 1730712345).sliceByDate (worldOf "app.log" "x\n" 1730715945 false)
        FILE_SLICE_DATE_HOUR).2.1.files "app.log" = some "x\n" ∧
    ((openWriter 1 1730712345).sliceByDate (worldOf "app.log" "x\n" 1730798745 false)
        FILE_SLICE_DATE_DAY).2.1.renameLog = [("app.log", "app_20241104.log")] := by
  decide

/-! ## C7: archival names -/

/-- C7, the code at a failing input: for the log file `x.logs/app.log` the
extension is `.log`, whose text first occurs inside the directory name.  The
archival names come out as `xs/app.log_20241104.log` and
`xs/app.log.2024-11-04-09.25.45.log`, not as `x.logs/app_20241104.log` and
`x.logs/app.2024-11-04-09.25.45.log`; a line rotation renames the log file to
that name. -/
theorem C7_archival_name_first_occurrence :
    pathExt "x.logs/app.log" = ".log" ∧
    dateFilename "x.logs/app.log" "20241104" = "xs/app.log_20241104.log" ∧
    flagFilename "x.logs/app.log" "2024-11-04-09.25.45" = "xs/app.log.2024-11-04-09.25.45.log" ∧
    ((openWriterIn 3 1730712345).sliceByFileLine
        (worldOf "x.logs/app.log" "a\nb\nc\n" 1730712345 false) 3).2.1.renameLog
      = [("x.logs/app.log", "xs/app.log.2024-11-04-09.25.45.log")] ∧
    ((openWriterIn 3 1730626000).sliceByDate
        (worldOf "x.logs/app.log" "a\nb\nc\n" 1730712345 false) FILE_SLICE_DATE_DAY).2.1.renameLog
      = [("x.logs/app.log", "xs/app.log_20241103.log")] := by
  decide

/-! ## C11: failures of the rotation steps -/

theorem dateFilename_length (filename bucket : String) :
    filename.length < (dateFilename filename bucket).length := by
  have h := replaceFirst_length (pathExt filename).data filename.data
  have hd : (dateFilename filename bucket).length
      = (replaceFirst (pathExt filename).data [] filename.data).length + 1
        + bucket.data.length + (pathExt filename).data.length := by
    simp only [dateFilename, stringsReplace1, String.length, String.data_append,
      List.length_append]
    rfl
  have h4 : filename.length = filename.data.length := rfl
  omega

theorem dateFilename_ne (filename bucket : String) :
    dateFilename filename bucket ≠ filename := by
  intro h
  have hl := dateFilename_length filename bucket
  rw [h] at hl
  exact Nat.lt_irrefl _ hl

theorem sliceByDateTests_name (filename : String) (dateSlice : SliceDateType)
    (startTime nowTime : Time)
    (h : (sliceByDateTests filename dateSlice startTime nowTime).1 = true) :
    (sliceByDateTests filename dateSlice startTime nowTime).2 ≠ filename := by
  unfold sliceByDateTests at h ⊢
  dsimp only at h ⊢
  split
  · exact dateFilename_ne _ _
  · rename_i h4
    rw [if_neg h4] at h
    split
    · exact dateFilename_ne _ _
    · rename_i h3
      rw [if_neg h3] at h
      split
      · exact dateFilename_ne _ _
      · rename_i h2
        rw [if_neg h2] at h
        split
        · exact dateFilename_ne _ _
        · rename_i h1
          rw [if_neg h1] at h
          cases h

theorem sliceByConfig_cases (fw : FileWriter) (config : FileConfig) (w : World) :
    ((fw.sliceByConfig config w).1 = fw ∧ (fw.sliceByConfig config w).2.2 = none ∧
      (fw.sliceByConfig config w).2.1.renameLog = w.renameLog) ∨
    (∃ old, old ≠ fw.logfile ∧
      fw.sliceByConfig config w = fw.closeRenameInit { w with tick := w.tick + 1 } old) := by
  by_cases h0 : config.RollingType = RollingDaily
  · rw [sliceByConfig_daily fw config w h0]
    unfold FileWriter.sliceByDate timeNow
    simp only
    split
    · rename_i hs
      exact Or.inr ⟨_, sliceByDateTests_name _ _ _ _ hs, rfl⟩
    · exact Or.inl ⟨rfl, rfl, rfl⟩
  · by_cases h1 : config.RollingType = RollingFileLine
    · rw [sliceByConfig_line fw config w h1]
      unfold FileWriter.sliceByFileLine timeNow
      simp only
      split
      · exact Or.inr ⟨_, flagFilename_ne _ _, rfl⟩
      · exact Or.inl ⟨rfl, rfl, rfl⟩
    · by_cases h2 : config.RollingType = RollingFileSize
      · rw [sliceByConfig_size fw config w h2]
        unfold FileWriter.sliceByFileSize timeNow
        simp only
        split
        · exact Or.inr ⟨_, flagFilename_ne _ _, rfl⟩
        · exact Or.inl ⟨rfl, rfl, rfl⟩
      · rw [sliceByConfig_other fw config w h0 h1 h2]
        exact Or.inl ⟨rfl, rfl, rfl⟩

/-- C11 (as amended): take a write that triggers a rotation, that is, one that
calls rename on the log file (date, size and line rotation alike), `old` being
the archival name.  Then `old` is not the path of the log file, and:
if the rename fails, `writeByConfig` returns that failure, no file is changed
(the event is appended to none) and the line count is unchanged;
if the rename succeeds and reopening the path fails, `writeByConfig` returns
that failure, the files are as the rename left them (the event is appended to
none) and the line count is unchanged;
if rename and reopening succeed, `writeByConfig` returns nil, whatever `Close`
returned (its result is dropped): the old content is under the archival name,
an event that passes the threshold is alone in the fresh log file, and the line
count is the one every write gives from 0 (nothing added when `MaxLine` is 0,
else 1 in JSON mode and the newlines of the text in plain-text mode); an event
below the threshold leaves the fresh file empty and the count at 0. -/
theorem C11_rotation_failure_returned (fw : FileWriter) (config : FileConfig) (m : loggerMsg)
    (w : World) (old : String)
    (htrig : (fw.writeByConfig config m w).2.1.renameLog
      = w.renameLog ++ [(fw.logfile, old)]) :
    old ≠ fw.logfile ∧
    (∀ e, (osRename { w with tick := w.tick + 1 } fw.logfile old).2 = some e →
      (fw.writeByConfig config m w).2.2 = some e ∧
      (fw.writeByConfig config m w).2.1.files = w.files ∧
      (fw.writeByConfig config m w).1.startLine = fw.startLine) ∧
    ((osRename { w with tick := w.tick + 1 } fw.logfile old).2 = none →
      ∀ e, (({ fw with writer := (fileClose fw.writer).1 } : FileWriter).initFile
          (osRename { w with tick := w.tick + 1 } fw.logfile old).1).2.2 = some e →
      (fw.writeByConfig config m w).2.2 = some e ∧
      (fw.writeByConfig config m w).2.1.files
        = (osRename { w with tick := w.tick + 1 } fw.logfile old).1.files ∧
      (fw.writeByConfig config m w).1.startLine = fw.startLine) ∧
    ((osRename { w with tick := w.tick + 1 } fw.logfile old).2 = none →
      (({ fw with writer := (fileClose fw.writer).1 } : FileWriter).initFile
          (osRename { w with tick := w.tick + 1 } fw.logfile old).1).2.2 = none →
      (fw.writeByConfig config m w).2.2 = none ∧
      (fw.writeByConfig config m w).2.1.files old = w.files fw.logfile ∧
      (config.Level ≤ m.Ilevel →
        (fw.writeByConfig config m w).2.1.files fw.logfile = some (fileMsg config m) ∧
        (fw.writeByConfig config m w).1.startLine
          = (if config.MaxLine = 0 then 0 else if config.JsonFlag = true then 1
              else ((stringsCount (fileMsg config m) '\n' : Nat) : Int))) ∧
      (¬ config.Level ≤ m.Ilevel →
        (fw.writeByConfig config m w).2.1.files fw.logfile = some "" ∧
        (fw.writeByConfig config m w).1.startLine = 0)) := by
  rw [writeByConfig_renameLog] at htrig
  rcases sliceByConfig_cases fw config w with h | ⟨old0, hne0, hs⟩
  · rw [h.2.2] at htrig
    have := congrArg List.length htrig
    simp at this
  · have hold : old0 = old := by
      rw [hs, (closeRenameInit_sameOutside _ _ _).2] at htrig
      have h1 := List.append_cancel_left htrig
      simpa using h1
    subst hold
    refine ⟨hne0, ?_, ?_, ?_⟩
    · intro e hfail
      have hcl := closeRenameInit_rename_fails fw { w with tick := w.tick + 1 } old0 e hfail
      refine ⟨?_, ?_, ?_⟩ <;> rw [writeByConfig_eq, hs, hcl] <;> simp
    · intro hren e hfail
      obtain ⟨_, hcl⟩ :=
        closeRenameInit_reopen_fails fw { w with tick := w.tick + 1 } old0 e hren hfail
      refine ⟨?_, ?_, ?_⟩ <;> rw [writeByConfig_eq, hs, hcl] <;> simp
    · intro hren hinit
      obtain ⟨c, hfile1, hdir1⟩ := osRename_ok_inv _ _ _ hren
      have hfile : w.files fw.logfile = some c := hfile1
      have hacc1 : ({ w with tick := w.tick + 1 } : World).noAccess fw.logfile = false := by
        cases hacc : ({ w with tick := w.tick + 1 } : World).noAccess fw.logfile with
        | false => rfl
        | true =>
          exfalso
          have hacc2 : (osRename { w with tick := w.tick + 1 } fw.logfile old0).1.noAccess
              fw.logfile = true := by
            rw [(osRename_sameOutside _ _ _).1.2.2.2.1]
            exact hacc
          rw [initFile_noAccess
            ({ fw with writer := (fileClose fw.writer).1 } : FileWriter) _ hacc2] at hinit
          simp at hinit
      obtain ⟨hok, hfw, _, hfiles⟩ :=
        closeRenameInit_existing fw { w with tick := w.tick + 1 } old0 c hfile1 hacc1 hne0 hdir1
      rw [← hs] at hok hfw hfiles
      have hlog : (fw.sliceByConfig config w).1.logfile = fw.logfile := by rw [hfw]
      have hwm := writeMsg_openOn (fw.sliceByConfig config w).1 config m
        (fw.sliceByConfig config w).2.1 "" (by rw [hfw]) (by rw [hfiles, hlog]; simp)
      rw [hlog] at hwm
      have hR : fw.writeByConfig config m w
          = (fw.sliceByConfig config w).1.writeMsg config m (fw.sliceByConfig config w).2.1 := by
        rw [writeByConfig_eq, if_pos hok]
      have hstart : (fw.sliceByConfig config w).1.startLine = 0 := by rw [hfw]
      refine ⟨?_, ?_, ?_, ?_⟩
      · rw [hR]
        exact (writeMsg_sameOutside _ _ _ _).2.2
      · rw [hfile]
        by_cases hl : config.Level ≤ m.Ilevel
        · rw [hR, (hwm.1 hl).1, setFile_files, if_neg hne0, hfiles]
          simp [hne0]
        · rw [hR, hwm.2 hl, hfiles]
          simp [hne0]
      · intro hl
        rw [hR, (hwm.1 hl).1, (hwm.1 hl).2.1, hstart]
        simp [setFile_files]
      · intro hl
        rw [hR, hwm.2 hl, hfiles, hstart]
        simp

/-- C11 at a writer at the line limit whose path can no longer be created: the
rename succeeds, reopening fails, and that failure is returned. -/
theorem C11_rotation_failure_returned_witness :
    ((openWriter 1 1730712345).writeByConfig (configOf false INFO RollingFileLine 0 1 0)
        (msgOf INFO "hello") (worldOf "app.log" "x\n" 1730712345 true)).2.1.renameLog
      = (worldOf "app.log" "x\n" 1730712345 true).renameLog
        ++ [((openWriter 1 1730712345).logfile, "app.2024-11-04-09.25.45.log")] ∧
    ((openWriter 1 1730712345).writeByConfig (configOf false INFO RollingFileLine 0 1 0)
        (msgOf INFO "hello") (worldOf "app.log" "x\n" 1730712345 true)).2.2
      = some Err.permission ∧
    ((openWriter 1 1730712345).writeByConfig (configOf false INFO RollingFileLine 0 1 0)
        (msgOf INFO "hello") (worldOf "app.log" "x\n" 1730712345 true)).1.startLine = 1 :=
  ⟨by decide,
   ((C11_rotation_failure_returned (openWriter 1 1730712345)
      (configOf false INFO RollingFileLine 0 1 0) (msgOf INFO "hello")
      (worldOf "app.log" "x\n" 1730712345 true) "app.2024-11-04-09.25.45.log"
      (by decide)).2.2.1 (by decide) Err.permission (by decide)).1,
   ((C11_rotation_failure_returned (openWriter 1 1730712345)
      (configOf false INFO RollingFileLine 0 1 0) (msgOf INFO "hello")
      (worldOf "app.log" "x\n" 1730712345 true) "app.2024-11-04-09.25.45.log"
      (by decide)).2.2.1 (by decide) Err.permission (by decide)).2.2⟩

/-- C11 fails as stated: after `flush` the handle is closed, so in the next
write, which is at the line limit and rotates, `Close` fails.  `writeByConfig`
still returns nil, the event is appended to the fresh log file and the line
count is incremented. -/
theorem C11_counterexample_close_failure :
    (fileClose (openWriter 3 1730712345).flush.writer).2 = some Err.closed ∧
    ((openWriter 3 1730712345).flush.writeByConfig (configOf false INFO RollingFileLine 0 3 0)
        (msgOf INFO "d") (worldOf "app.log" "a\nb\nc\n" 1730712345 false)).2.1.renameLog
      = [("app.log", "app.2024-11-04-09.25.45.log")] ∧
    ((openWriter 3 1730712345).flush.writeByConfig (configOf false INFO RollingFileLine 0 3 0)
        (msgOf INFO "d") (worldOf "app.log" "a\nb\nc\n" 1730712345 false)).2.2 = none ∧
    ((openWriter 3 1730712345).flush.writeByConfig (configOf false INFO RollingFileLine 0 3 0)
        (msgOf INFO "d") (worldOf "app.log" "a\nb\nc\n" 1730712345 false)).2.1.files "app.log"
      = some "2024-11-04 09:25:45.000 [ INFO] [main.go:17] d\n" ∧
    ((openWriter 3 1730712345).flush.writeByConfig (configOf false INFO RollingFileLine 0 3 0)
        (msgOf INFO "d") (worldOf "app.log" "a\nb\nc\n" 1730712345 false)).1.startLine = 1 := by
  decide

/-! ## C12: the global level and its names -/

theorem SetLevel_level (adapter : AbstractLogger) (l : LOGLEVEL) :
    (adapter.SetLevel l).Level = l ∧ (adapter.SetLevel l).ID = adapter.ID := by
  cases adapter <;> exact ⟨rfl, rfl⟩

theorem SetGlobalLevel_level (logger : Logger) (l : LOGLEVEL) :
    (∀ a ∈ (logger.SetGlobalLevel l).adapterArr, a.Level = l) ∧
    (logger.SetGlobalLevel l).adapterArr.map AbstractLogger.ID
      = logger.adapterArr.map AbstractLogger.ID := by
  unfold Logger.SetGlobalLevel
  constructor
  · intro a ha
    obtain ⟨b, _, hb⟩ := List.mem_map.mp ha
    rw [← hb]
    exact (SetLevel_level b l).1
  · simp only [List.map_map]
    apply List.map_congr_left
    intro a _
    exact (SetLevel_level a l).2

theorem showLevel_foldl (l : LOGLEVEL) (arr : List AbstractLogger)
    (init : String → Option String) (hl : ∀ a ∈ arr, a.Level = l) (k : String) :
    arr.foldl
        (fun res adapter => fun k =>
          if k = adapter.ID then some (LevelString adapter.Level) else res k) init k
      = if k ∈ arr.map AbstractLogger.ID then some (LevelString l) else init k := by
  induction arr generalizing init with
  | nil => simp
  | cons a rest ih =>
    simp only [List.foldl_cons, List.map_cons, List.mem_cons]
    rw [ih _ (fun b hb => hl b (List.mem_cons_of_mem _ hb))]
    by_cases hk : k ∈ rest.map AbstractLogger.ID
    · simp [hk]
    · by_cases ha : k = a.ID
      · simp [hk, ha, hl a (List.mem_cons_self _ _)]
      · simp [hk, ha]

theorem ShowLevel_after_SetGlobalLevel (logger : Logger) (l : LOGLEVEL) (k : String) :
    (logger.SetGlobalLevel l).ShowLevel k
      = if k ∈ logger.adapterArr.map AbstractLogger.ID then some (LevelString l) else none := by
  unfold Logger.ShowLevel
  rw [showLevel_foldl l _ _ (SetGlobalLevel_level logger l).1 k, (SetGlobalLevel_level logger l).2]

theorem LevelString_names :
    LevelString DEBUG = "DEBUG" ∧ LevelString INFO = "INFO" ∧ LevelString ERROR = "ERROR" ∧
    LevelString FATAL = "FATAL" ∧ LevelString OFF = "OFF" := by
  decide

/-- C12, the code at a failing input: on the logger of `GetLogger` (one console
adapter `defaultConsole`), after `SetGlobalLevel(WARN)` the threshold of the
adapter is WARN, but `ShowLevel` maps `defaultConsole` to `WANR`, the entry of
`levelStringMap` for WARN, not to `WARN`.  The same name goes into every
formatted line of level WARN. -/
theorem C12_warn_level_name :
    (∀ a ∈ ((loggerOf [.console (NewConsoleAdapter INFO true false)]).SetGlobalLevel
        WARN).adapterArr, a.Level = WARN) ∧
    ((loggerOf [.console (NewConsoleAdapter INFO true false)]).SetGlobalLevel WARN).ShowLevel
        "defaultConsole" = some "WANR" ∧
    LevelString WARN = "WANR" ∧
    formatLoggerMsg (msgOf WARN "hello")
      = "2024-11-04 09:25:45.000 [ WANR] [main.go:17] hello" := by
  decide

/-! ## C10: the line count that `initFile` sets -/

/-- C10 (as amended): `FileLines` of an accessible file is the number of newline
characters in its content, whatever the content (a trailing fragment without
newline is not counted).  `initFile` succeeds only when the log file may be
opened or created, and when it succeeds the line count of the segment is
`FileLines` of the log file: 0 for a file that `initFile` had to create, the
number of newlines already present for a file that existed.  The next write of
an event that passes the threshold to such a reopened file, when it makes no
rename (it does not slice the file), counts on from that number: it adds
nothing when `MaxLine` is 0, and else 1 in JSON mode and the newlines of its
text in plain-text mode; a write whose slicing step succeeds counts on in the
same way from the count the slicing step leaves. -/
theorem C10_initFile_line_count (fw : FileWriter) (w : World)
    (hok : (fw.initFile w).2.2 = none) :
    (∀ (w1 : World) (filename content : String), w1.files filename = some content →
        w1.noAccess filename = false →
        FileLines w1 filename = .ok ((stringsCount content '\n' : Nat) : Int)) ∧
    w.noAccess fw.logfile = false ∧
    FileLines (fw.initFile w).2.1 fw.logfile = .ok (fw.initFile w).1.startLine ∧
    (w.files fw.logfile = none →
        (fw.initFile w).2.1.files fw.logfile = some "" ∧ (fw.initFile w).1.startLine = 0) ∧
    (∀ c, w.files fw.logfile = some c →
        (fw.initFile w).2.1.files fw.logfile = some c ∧
        (fw.initFile w).1.startLine = ((stringsCount c '\n' : Nat) : Int) ∧
        ∀ (config : FileConfig) (m : loggerMsg), config.Level ≤ m.Ilevel →
          (((fw.initFile w).1.writeByConfig config m (fw.initFile w).2.1).2.1.renameLog
              = (fw.initFile w).2.1.renameLog →
            ((fw.initFile w).1.writeByConfig config m (fw.initFile w).2.1).1.startLine
              = ((stringsCount c '\n' : Nat) : Int)
                + (if config.MaxLine = 0 then 0 else if config.JsonFlag = true then 1
                   else ((stringsCount (fileMsg config m) '\n' : Nat) : Int))) ∧
          (((fw.initFile w).1.sliceByConfig config (fw.initFile w).2.1).2.2 = none →
            ((fw.initFile w).1.writeByConfig config m (fw.initFile w).2.1).1.startLine
              = ((fw.initFile w).1.sliceByConfig config (fw.initFile w).2.1).1.startLine
                + (if config.MaxLine = 0 then 0 else if config.JsonFlag = true then 1
                   else ((stringsCount (fileMsg config m) '\n' : Nat) : Int)))) := by
  have hacc : w.noAccess fw.logfile = false := by
    cases h : w.noAccess fw.logfile with
    | false => rfl
    | true => rw [initFile_noAccess fw w h] at hok; simp at hok
  refine ⟨FileLines_eq_count, hacc, ?_, ?_, ?_⟩
  · cases hfile : w.files fw.logfile with
    | none =>
      rw [initFile_missing fw w hfile hacc]
      exact FileLines_eq_count _ _ "" (by simp [World.setFile]) hacc
    | some c =>
      rw [initFile_existing fw w c hfile hacc]
      exact FileLines_eq_count _ _ c hfile hacc
  · intro hfile
    rw [initFile_missing fw w hfile hacc]
    simp [World.setFile]
  · intro c hfile
    have hstart : (fw.initFile w).1.startLine = ((stringsCount c '\n' : Nat) : Int) := by
      rw [initFile_existing fw w c hfile hacc]
    refine ⟨?_, hstart, ?_⟩
    · rw [initFile_existing fw w c hfile hacc]
      exact hfile
    · intro config m hl
      constructor
      · intro hlog
        obtain ⟨hfw, hs⟩ := writeByConfig_unsliced (fw.initFile w).1 config m (fw.initFile w).2.1
          (by rw [hlog])
        rw [writeByConfig_eq, if_pos hs, writeMsg_startLine _ _ _ _ hl, hfw, hstart]
      · intro hs
        rw [writeByConfig_eq, if_pos hs, writeMsg_startLine _ _ _ _ hl]

/-- C10 at a writer that opens an existing file of two finished lines and a
trailing fragment. -/
theorem C10_initFile_line_count_witness :
    (freshWriter.initFile (worldOf "app.log" "a\nb\nc" 1730712345 false)).2.2 = none ∧
    (freshWriter.initFile (worldOf "app.log" "a\nb\nc" 1730712345 false)).1.startLine = 2 :=
  ⟨by decide,
   ((C10_initFile_line_count freshWriter (worldOf "app.log" "a\nb\nc" 1730712345 false)
      (by decide)).2.2.2.2 "a\nb\nc" (by decide)).2.1⟩

/-- C10 fails as stated: a writer reopens `app.log`, which holds two lines, and
its line count is 2.  With the configuration that `NewFileAdapter` builds
(`MaxLine` 0) the next event is appended, as the third line, and the line count
stays 2.  With rotation by line count and `MaxLine` 2 the next write slices the
file first and the line count ends at 1: it has counted from zero. -/
theorem C10_counterexample_next_write :
    (freshWriter.initFile (worldOf "app.log" "a\nb\n" 1730712345 false)).2.2 = none ∧
    (freshWriter.initFile (worldOf "app.log" "a\nb\n" 1730712345 false)).1.startLine = 2 ∧
    (newFileAdapterConfig INFO "." "app.log").Level ≤ (msgOf INFO "hello").Ilevel ∧
    ((freshWriter.initFile (worldOf "app.log" "a\nb\n" 1730712345 false)).1.writeByConfig
        (newFileAdapterConfig INFO "." "app.log") (msgOf INFO "hello")
        (freshWriter.initFile (worldOf "app.log" "a\nb\n" 1730712345 false)).2.1).2.1.files
        "app.log"
      = some "a\nb\n2024-11-04 09:25:45.000 [ INFO] [main.go:17] hello\n" ∧
    ((freshWriter.initFile (worldOf "app.log" "a\nb\n" 1730712345 false)).1.writeByConfig
        (newFileAdapterConfig INFO "." "app.log") (msgOf INFO "hello")
        (freshWriter.initFile (worldOf "app.log" "a\nb\n" 1730712345 false)).2.1).1.startLine
      = 2 ∧
    ((freshWriter.initFile (worldOf "app.log" "a\nb\n" 1730712345 false)).1.writeByConfig
        (configOf false INFO RollingFileLine 0 2 0) (msgOf INFO "hello")
        (freshWriter.initFile (worldOf "app.log" "a\nb\n" 1730712345 false)).2.1).1.startLine
      = 1 := by
  decide

end Glog
